import Mathlib

/-!
Verification development for the Cinespace `.csp` LUT codec
(`read_LUT_Cinespace` / `write_LUT_Cinespace` in
`colour/io/luts/cinespace_csp.py`).

Modelling conventions:
* A file is a list of lines; a line is a `List Char` (`Str`).
* Floating-point sample values are modelled as `Option ℚ`, with `none`
  playing the role of IEEE NaN (the format's ragged-row sentinel);
  arithmetic propagates `none` the way IEEE arithmetic propagates NaN.
  Division by zero is the one place the model and IEEE floats differ
  (the model returns `0`); claims that involve division carry hypotheses
  or report the model's division operator explicitly.
* `'{0:.{1}f}'.format(v, decimals)` is modelled by `fmtV`, and parsing a
  decimal token by `parseFloatCs`; the two are related by a proved
  round-trip lemma, so rounding at `decimals` places is explicit.
-/

namespace Csp

/-- String type used for file lines, names and comments (Python `str`). -/
abbrev Str := List Char

/-- The value type of a sample: `none` models IEEE NaN. -/
abbrev V := Option ℚ

/-- Characters treated as whitespace by `str.strip()` / `str.split()`. -/
def isWs (c : Char) : Bool :=
  c == ' ' || c == '\t' || c == '\n' || c == '\r' || c == '\x0b' || c == '\x0c'

/-- Python `str.strip()`: drop whitespace from both ends. -/
def strip (s : Str) : Str :=
  ((s.dropWhile isWs).reverse.dropWhile isWs).reverse

/-- Helper for `tokens`: accumulates the current (reversed) token. -/
def tokensAux : Str → Str → List Str
  | [], cur => if cur.isEmpty then [] else [cur.reverse]
  | c :: rest, cur =>
    if isWs c then
      if cur.isEmpty then tokensAux rest [] else cur.reverse :: tokensAux rest []
    else tokensAux rest (c :: cur)

/-- Python `str.split()` with no argument: split on whitespace runs,
discarding empty tokens. -/
def tokens (s : Str) : List Str := tokensAux s []

/-- Digit characters for base 10. -/
def digitChar (d : ℕ) : Char :=
  match d with
  | 0 => '0' | 1 => '1' | 2 => '2' | 3 => '3' | 4 => '4'
  | 5 => '5' | 6 => '6' | 7 => '7' | 8 => '8' | _ => '9'

/-- Numeric value of a digit character. -/
def digitVal (c : Char) : ℕ := c.toNat - 48

/-- Whether a character is a decimal digit. -/
def isDigitC (c : Char) : Bool := decide (48 ≤ c.toNat ∧ c.toNat ≤ 57)

/-- Base-10 value of a digit list (most significant first). -/
def natOfDigits (l : List ℕ) : ℕ := l.foldl (fun a d => 10 * a + d) 0

/-- Base-10 value of a digit-character list. -/
def natOfChars (cs : Str) : ℕ := natOfDigits (cs.map digitVal)

/-- Fuel-driven base-10 digit expansion (most significant first). -/
def natDigitsAux : ℕ → ℕ → List ℕ
  | 0, _ => []
  | fuel + 1, n => if n < 10 then [n] else natDigitsAux fuel (n / 10) ++ [n % 10]

/-- Base-10 digits of a natural number (most significant first). -/
def natDigits (n : ℕ) : List ℕ := natDigitsAux (n + 1) n

/-- Decimal rendering of a natural number, as characters. -/
def natChars (n : ℕ) : Str := (natDigits n).map digitChar

/-- Parse a token of decimal digits as a natural number (Python `int`,
nonnegative case). -/
def parseNatCs (cs : Str) : Option ℕ :=
  if !cs.isEmpty && cs.all isDigitC then some (natOfChars cs) else none

/-- Parse a signed integer token (Python `int(str)`). -/
def parseIntCs : Str → Option ℤ
  | [] => none
  | c :: rest =>
    if c = '-' then (parseNatCs rest).map (fun n => -(n : ℤ))
    else if c = '+' then (parseNatCs rest).map (fun n => (n : ℤ))
    else (parseNatCs (c :: rest)).map (fun n => (n : ℤ))

/-- Split a character list at the first `'.'`, if any. -/
def splitDot : Str → Str × Option Str
  | [] => ([], none)
  | c :: rest =>
    if c = '.' then ([], some rest)
    else
      let (a, b) := splitDot rest
      (c :: a, b)

/-- Value contributed by a fraction-digit list `fp`: `fp / 10 ^ |fp|`. -/
def fracVal (cs : Str) : ℚ := (natOfChars cs : ℚ) / 10 ^ cs.length

/-- Parse an unsigned decimal fraction `digits[.digits]` (Python `float`,
restricted to the plain-decimal grammar the writer emits). -/
def parseUFrac (cs : Str) : Option ℚ :=
  match splitDot cs with
  | (ip, none) =>
    if !ip.isEmpty && ip.all isDigitC then some ((natOfChars ip : ℚ)) else none
  | (ip, some fp) =>
    if ip.isEmpty && fp.isEmpty then none
    else if ip.all isDigitC && fp.all isDigitC then
      some ((natOfChars ip : ℚ) + fracVal fp)
    else none

/-- Parse a float token; `"nan"` parses to the NaN value `none`. -/
def parseFloatCs (cs : Str) : Option V :=
  if cs = ['n', 'a', 'n'] then some none
  else
    match cs with
    | [] => none
    | c :: rest =>
      if c = '-' then (parseUFrac rest).map (fun q => some (-q))
      else if c = '+' then (parseUFrac rest).map (fun q => some q)
      else (parseUFrac (c :: rest)).map (fun q => some q)

/-- Left-pad a digit string with zeros to width `d`. -/
def padZeros (d : ℕ) (cs : Str) : Str := List.replicate (d - cs.length) '0' ++ cs

/-- Format a nonnegative rational with `d` decimal places (the magnitude
part of Python `'{0:.{1}f}'.format`). -/
def fmtNN (d : ℕ) (q : ℚ) : Str :=
  natChars ((round (q * (10 : ℚ) ^ d)).toNat / 10 ^ d) ++
    '.' :: padZeros d (natChars ((round (q * (10 : ℚ) ^ d)).toNat % 10 ^ d))

/-- Format a rational with `d` decimal places (Python fixed-point format). -/
def fmtQ (d : ℕ) (q : ℚ) : Str := if q < 0 then '-' :: fmtNN d (-q) else fmtNN d q

/-- Format a value with `d` decimal places; NaN prints as `"nan"`. -/
def fmtV (d : ℕ) : V → Str
  | none => ['n', 'a', 'n']
  | some q => fmtQ d q

/-- Rounding a nonnegative rational to `d` decimal places. -/
def rdNN (d : ℕ) (q : ℚ) : ℚ := ((round (q * (10 : ℚ) ^ d)).toNat : ℚ) / 10 ^ d

/-- Rounding a rational to `d` decimal places (sign-magnitude, matching
the formatter). -/
def rdQ (d : ℕ) (q : ℚ) : ℚ := if q < 0 then -(rdNN d (-q)) else rdNN d q

/-- Rounding a value to `d` decimal places; NaN stays NaN. -/
def rdV (d : ℕ) : V → V
  | none => none
  | some q => some (rdQ d q)

/-! ### NaN-propagating arithmetic on values -/

/-- Lift a binary rational operation to values, propagating NaN. -/
def liftV2 (f : ℚ → ℚ → ℚ) : V → V → V
  | some a, some b => some (f a b)
  | _, _ => none

/-- Addition on values (NaN-propagating). -/
def addV : V → V → V := liftV2 (· + ·)

/-- Subtraction on values (NaN-propagating). -/
def subV : V → V → V := liftV2 (· - ·)

/-- Multiplication on values (NaN-propagating). -/
def mulV : V → V → V := liftV2 (· * ·)

/-- Division on values (NaN-propagating).  Note: rational division by zero
yields `0` here, where IEEE floats yield an infinity or NaN; claims that
exercise division either avoid the zero-divisor case or state the result
in terms of this operator. -/
def divV : V → V → V := liftV2 (· / ·)

/-- Minimum of a rational list as a value (`none` when the list is empty,
matching `np.nanmin` of an all-NaN array). -/
def minList (l : List ℚ) : V :=
  l.foldl (fun acc q => match acc with | none => some q | some a => some (min a q)) none

/-- Maximum of a rational list as a value. -/
def maxList (l : List ℚ) : V :=
  l.foldl (fun acc q => match acc with | none => some q | some a => some (max a q)) none

/-- `np.nanmin` over a whole matrix: minimum of the non-NaN entries. -/
def nanmin (t : List (List V)) : V := minList (t.flatten.filterMap id)

/-- `np.nanmax` over a whole matrix: maximum of the non-NaN entries. -/
def nanmax (t : List (List V)) : V := maxList (t.flatten.filterMap id)

/-! ### The LUT data model

Modelled from the spec: the LUT classes (`LUT1D`, `LUT3x1D`, `LUT3D`,
`LUTSequence`) live outside this core (the spec's section 3 describes
them); only the attributes the codec uses are modelled — `table`,
`name`, `domain`, `comments`, `size`, `is_domain_explicit()` and the
`LUT1D → LUT3x1D` conversion. -/

/-- Modelled from the spec: a `LUT3x1D` — per-channel 1-D transform with a
`(n, 3)` table and a `(2, 3)` (or explicit `(m, 3)`) domain. -/
structure LUT3x1D where
  table : List (List V)
  name : Str
  domain : List (List V)
  comments : List Str
deriving DecidableEq

/-- Modelled from the spec: a `LUT1D` — single-channel 1-D transform with
a length-`n` table and a length-2 (or explicit length-`m`) domain. -/
structure LUT1D where
  table : List V
  name : Str
  domain : List V
  comments : List Str
deriving DecidableEq

/-- Modelled from the spec: a `LUT3D` — 3-D cube with a
`(a, b, c, 3)` table and a `(2, 3)` domain. -/
structure LUT3D where
  table : List (List (List (List V)))
  name : Str
  domain : List (List V)
  comments : List Str
deriving DecidableEq

/-- A stage of a `LUTSequence`. -/
inductive LUTStage
  | lut1D (l : LUT1D)
  | lut3x1D (l : LUT3x1D)
  | lut3D (l : LUT3D)
deriving DecidableEq

/-- A value passed to / returned by the codec: one of the three LUT
classes, a `LUTSequence` of stages, or (for the writer's type check) any
other Python object, represented by `other`. -/
inductive LUTValue
  | stage (s : LUTStage)
  | sequence (ss : List LUTStage)
  | other
deriving DecidableEq

/-- `LUT.size` for a `LUT3x1D`: the number of table rows. -/
def size31 (l : LUT3x1D) : ℕ := l.table.length

/-- `LUT.size` for a `LUT3D`: the first table axis (`table.shape[0]`). -/
def size3 (l : LUT3D) : ℕ := l.table.length

/-- `is_domain_explicit()` for a `LUT3x1D`: the domain has more rows than
the min/max pair. -/
def is_domain_explicit31 (l : LUT3x1D) : Bool := l.domain.length ≠ 2

/-- `is_domain_explicit()` for a `LUT1D`. -/
def is_domain_explicit1 (l : LUT1D) : Bool := l.domain.length ≠ 2

/-- Modelled from the spec: `LUT1D.as_LUT(LUT3x1D)` — convert a 1-D LUT to
its 3x1D equivalent by stacking the single channel three times. -/
def as_LUT3x1D (l : LUT1D) : LUT3x1D :=
  { table := l.table.map (fun v => [v, v, v])
    name := l.name
    domain := l.domain.map (fun v => [v, v, v])
    comments := l.comments }

/-- Modelled from the spec: the default `LUT3x1D()` used by the writer as
an empty shaper placeholder; only its `comments` (empty) are observed. -/
def LUT3x1D_default : LUT3x1D :=
  { table := [[some 0, some 0, some 0], [some 1, some 1, some 1]]
    name := "Unity".toList
    domain := [[some 0, some 0, some 0], [some 1, some 1, some 1]]
    comments := [] }

/-- Modelled from the spec: the default `LUT3D()` used by the writer as an
empty cube placeholder; only its `comments` (empty) are observed. -/
def LUT3D_default : LUT3D :=
  { table := []
    name := "Unity".toList
    domain := [[some 0, some 0, some 0], [some 1, some 1, some 1]]
    comments := [] }

/-! ### The reader (`read_LUT_Cinespace`) -/

/-- Errors surfaced by the reader.  `emptyFile`, `invalidHeader`,
`invalidKind` and `tableSizeMismatch` model the four `assert` messages;
`indexErr` models a Python `IndexError` from an out-of-range line access;
`valueErr` models a `ValueError` from `int()` / `float()` / `numpy`. -/
inductive ReadErr
  | emptyFile
  | indexErr
  | invalidHeader
  | invalidKind
  | valueErr
  | tableSizeMismatch
deriving DecidableEq

/-- `lines[i]`, raising `IndexError` out of range. -/
def lget (l : List Str) (i : ℕ) : Except ReadErr Str :=
  match l[i]? with
  | some a => .ok a
  | none => .error .indexErr

/-- Monadic map over `Option` (all-or-nothing parsing of a token list). -/
def mapMOpt {α β : Type} (f : α → Option β) : List α → Option (List β)
  | [] => some []
  | a :: l =>
    match f a with
    | none => none
    | some b => (mapMOpt f l).map (fun bs => b :: bs)

/-- Monadic map over `Except ReadErr` (parsing a list of lines, failing on
the first error). -/
def mapMExc {α β : Type} (f : α → Except ReadErr β) : List α → Except ReadErr (List β)
  | [] => .ok []
  | a :: l =>
    match f a with
    | .error e => .error e
    | .ok b =>
      match mapMExc f l with
      | .error e => .error e
      | .ok bs => .ok (b :: bs)

/-- Line normalization: strip every line and keep only the non-empty ones
(`[line.strip() for line in lines if line.strip()]`). -/
def normalizeLines (raw : List Str) : List Str :=
  (raw.map strip).filter (fun l => !l.isEmpty)

/-- The `unity_range` constant `np.array([[0, 0, 0], [1, 1, 1]])`. -/
def unity_range : List (List V) :=
  [[some 0, some 0, some 0], [some 1, some 1, some 1]]

/-- `_parse_metadata_section`: first metadata line is the title, the rest
are comments. -/
def _parse_metadata_section (metadata : List Str) : Str × List Str :=
  match metadata with
  | [] => ([], [])
  | t :: rest => (t, rest)

/-- The metadata scan over `lines[2:]`: tracks the enumeration index and
whether a `BEGIN METADATA` has been seen; stops at the first
`END METADATA`, returning its index and the collected metadata lines.
If no `END METADATA` occurs the index contribution is `0` (the Python
`seek` is left unchanged). -/
def metaScanAux : List Str → ℕ → Bool → List Str → ℕ × List Str
  | [], _, _, acc => (0, acc.reverse)
  | l :: rest, i, isMeta, acc =>
    if l = "BEGIN METADATA".toList then metaScanAux rest (i + 1) true acc
    else if l = "END METADATA".toList then (i, acc.reverse)
    else metaScanAux rest (i + 1) isMeta (if isMeta then l :: acc else acc)

/-- Parse one line of float samples (`as_float_array(line.split())`). -/
def parseFloatRowCs (line : Str) : Option (List V) := mapMOpt parseFloatCs (tokens line)

/-- Pad one pre-LUT row to the declared width with the NaN sentinel
(`np.pad(..., constant_values=np.nan)`); a row longer than the width makes
`np.pad` raise (negative pad width). -/
def padRow (N : ℤ) (r : List V) : Except ReadErr (List V) :=
  if (r.length : ℤ) = N then .ok r
  else if (r.length : ℤ) < N then .ok (r ++ List.replicate (N - r.length).toNat none)
  else .error .valueErr

/-- Parse a float-sample line at index `i` of the slice. -/
def floatRowAt (ls : List Str) (i : ℕ) : Except ReadErr (List V) := do
  let l ← lget ls i
  match parseFloatRowCs l with
  | some r => .ok r
  | none => .error .valueErr

/-- Parse the size integer at index `i` of the slice. -/
def intAt (ls : List Str) (i : ℕ) : Except ReadErr ℤ := do
  let l ← lget ls i
  match parseIntCs l with
  | some n => .ok n
  | none => .error .valueErr

/-- `_parse_domain_section`: nine lines, three groups of
[size, domain samples, table samples]; rows are padded to the maximum
declared size with the NaN sentinel. -/
def _parse_domain_section (ls : List Str) : Except ReadErr (List (List V)) := do
  let s0 ← intAt ls 0
  let s3 ← intAt ls 3
  let s6 ← intAt ls 6
  let N := max s0 (max s3 s6)
  let r1 ← floatRowAt ls 1
  let r2 ← floatRowAt ls 2
  let r4 ← floatRowAt ls 4
  let r5 ← floatRowAt ls 5
  let r7 ← floatRowAt ls 7
  let r8 ← floatRowAt ls 8
  let p1 ← padRow N r1
  let p2 ← padRow N r2
  let p4 ← padRow N r4
  let p5 ← padRow N r5
  let p7 ← padRow N r7
  let p8 ← padRow N r8
  .ok [p1, p2, p4, p5, p7, p8]

/-- `_parse_table_section`: the size line parsed as integers, then the
remaining lines as float rows; `as_float_array` requires a rectangular
row list. -/
def _parse_table_section (ls : List Str) :
    Except ReadErr (List ℤ × List (List V)) := do
  let l0 ← lget ls 0
  let size ← match mapMOpt parseIntCs (tokens l0) with
    | some s => .ok s
    | none => .error (.valueErr : ReadErr)
  let rows ← mapMExc (fun l =>
    match parseFloatRowCs l with
    | some r => (.ok r : Except ReadErr (List V))
    | none => .error .valueErr) (ls.drop 1)
  if rows.all (fun r => r.length = (rows.headD []).length) then .ok (size, rows)
  else .error .valueErr

/-! ### Classification (steps 1-4 of the decision procedure) -/

/-- Fuel-driven chunking of a list into rows of width `n`. -/
def chunksAux : ℕ → ℕ → List V → List (List V)
  | 0, _, _ => []
  | fuel + 1, n, l => if l.isEmpty then [] else l.take n :: chunksAux fuel n (l.drop n)

/-- Chunk a flat list into rows of width `n` (`np.reshape` row grouping). -/
def chunksOf (n : ℕ) (l : List V) : List (List V) := chunksAux l.length n l

/-- `pre_LUT.reshape(3, 4)` for the `(6, 2)` pre-LUT matrix. -/
def reshape34 (p : List (List V)) : List (List V) := chunksOf 4 p.flatten

/-- `.transpose()` of a rectangular matrix of width `w`. -/
def transposeM (m : List (List V)) (w : ℕ) : List (List V) :=
  (List.range w).map fun j => m.map (fun r => r.getD j none)

/-- The trivial-shaper test of the classifier:
`pre_LUT.shape == (6, 2) and
 np.array_equal(pre_LUT.reshape(3, 4).transpose()[2:4], unity_range)`. -/
def pre_unity (p : List (List V)) : Bool :=
  p.all (fun r => r.length = 2) &&
    decide ((transposeM (reshape34 p) 4).drop 2 = unity_range)

/-- Domain taken by the collapse branches:
`pre_LUT.reshape(3, 4).transpose()[0:2]`. -/
def collapse_domain (p : List (List V)) : List (List V) :=
  (transposeM (reshape34 p) 4).take 2

/-- `tstack((a, b, c))`: stack three equal-length channels column-wise. -/
def tstack3 (a b c : List V) : List (List V) :=
  List.zipWith3 (fun x y z => [x, y, z]) a b c

/-- Element access in a 4-axis nested table. -/
def idx4 (t : List (List (List (List V)))) (i j k ch : ℕ) : V :=
  (((t.getD i []).getD j []).getD k []).getD ch none

/-- `table.reshape([a, b, c, 3], order='F')` for a flat `(a*b*c, 3)` row
list: the first grid axis varies fastest across consecutive rows, so grid
entry `(i, j, k, ch)` comes from flat row `i + a*j + a*b*k`, channel `ch`. -/
def reshapeF3 (a b c : ℕ) (rows : List (List V)) : List (List (List (List V))) :=
  (List.range a).map fun i =>
    (List.range b).map fun j =>
      (List.range c).map fun k =>
        (List.range 3).map fun ch =>
          (rows.getD (i + a * j + a * b * k) []).getD ch none

/-- The reshape step of the 3-D branches, with `numpy`'s failure modes:
`size[0..2]` raise `IndexError` when missing, a negative dimension or an
element-count mismatch raise `ValueError`. -/
def reshapeChecked (size : List ℤ) (rows : List (List V)) :
    Except ReadErr (List (List (List (List V)))) := do
  let a ← match size[0]? with | some a => .ok a | none => .error (.indexErr : ReadErr)
  let b ← match size[1]? with | some b => .ok b | none => .error (.indexErr : ReadErr)
  let c ← match size[2]? with | some c => .ok c | none => .error (.indexErr : ReadErr)
  if a < 0 ∨ b < 0 ∨ c < 0 then .error .valueErr
  else if rows.length * (rows.headD []).length ≠ a.toNat * b.toNat * c.toNat * 3 then
    .error .valueErr
  else .ok (reshapeF3 a.toNat b.toNat c.toNat rows)

/-- Steps 2-4 of the decision procedure (the non-collapse cases):
a shaper+cube sequence for the 3-D kind, and for the 1-D kind either the
folded pure-rescale `LUT3x1D` or a two-stage `LUT3x1D` sequence. -/
def classifySteps234 (is3D : Bool) (title : Str) (comments : List Str)
    (p : List (List V)) (size : List ℤ) (table : List (List V)) :
    Except ReadErr LUTValue :=
  let pre_domain := tstack3 (p.getD 0 []) (p.getD 2 []) (p.getD 4 [])
  let pre_table := tstack3 (p.getD 1 []) (p.getD 3 []) (p.getD 5 [])
  if is3D then do
    let shaper_name := title ++ " - Shaper".toList
    let cube_name := title ++ " - Cube".toList
    let t ← reshapeChecked size table
    .ok (.sequence [
      .lut3x1D { table := pre_table, name := shaper_name, domain := pre_domain,
                 comments := [] },
      .lut3D { table := t, name := cube_name,
               domain := [[some 0, some 0, some 0], [some 1, some 1, some 1]],
               comments := comments }])
  else
    if table.length = 2 ∧ table.all (fun r => r.length = 3) then
      let table_min := (table.getD 0 [])
      let table_max := (table.getD 1 [])
      let folded := pre_table.map (fun r =>
        List.zipWith3 (fun v mx mn => addV (mulV v (subV mx mn)) mn) r table_max table_min)
      .ok (.stage (.lut3x1D { table := folded, name := title, domain := pre_domain,
                              comments := comments }))
    else
      let pre_name := title ++ " - PreLUT".toList
      let table_name := title ++ " - Table".toList
      .ok (.sequence [
        .lut3x1D { table := pre_table, name := pre_name, domain := pre_domain,
                   comments := [] },
        .lut3x1D { table := table, name := table_name,
                   domain := [[some 0, some 0, some 0], [some 1, some 1, some 1]],
                   comments := comments }])

/-- The classifier: the two collapse branches guarded by the trivial-shaper
test, then steps 2-4. -/
def classifyRead (is3D : Bool) (title : Str) (comments : List Str)
    (p : List (List V)) (size : List ℤ) (table : List (List V)) :
    Except ReadErr LUTValue :=
  if is3D && pre_unity p then do
    let t ← reshapeChecked size table
    .ok (.stage (.lut3D { table := t, name := title, domain := collapse_domain p,
                          comments := comments }))
  else if !is3D && pre_unity p then
    .ok (.stage (.lut3x1D { table := table, name := title,
                            domain := collapse_domain p, comments := comments }))
  else classifySteps234 is3D title comments p size table

/-- Stages 1-5 of the reader: normalization, header/kind validation,
metadata scan, pre-LUT block and table block.  Returns
`(is3D, title, comments, pre_LUT, size, table)`. -/
def parseStages (raw : List Str) :
    Except ReadErr (Bool × Str × List Str × List (List V) × List ℤ × List (List V)) := do
  if raw.length = 0 then .error .emptyFile
  else
    let lines := normalizeLines raw
    let header ← lget lines 0
    if header ≠ "CSPLUTV100".toList then .error .invalidHeader
    else do
      let kind ← lget lines 1
      if ¬(kind = "1D".toList ∨ kind = "3D".toList) then .error .invalidKind
      else do
        let is3D := kind = "3D".toList
        let (d, metadata) := metaScanAux (lines.drop 2) 0 false []
        let (title, comments) := _parse_metadata_section metadata
        let seek := 2 + d + 1
        let pre_LUT ← _parse_domain_section ((lines.drop seek).take 9)
        let (size, table) ← _parse_table_section (lines.drop (seek + 9))
        .ok (is3D, title, comments, pre_LUT, size, table)

/-- `read_LUT_Cinespace`, over the file's raw line list. -/
def read_LUT_Cinespace (raw : List Str) : Except ReadErr LUTValue := do
  let (is3D, title, comments, pre_LUT, size, table) ← parseStages raw
  if size.prod ≠ (table.length : ℤ) then .error .tableSizeMismatch
  else classifyRead is3D title comments pre_LUT size table

/-! ### The writer (`write_LUT_Cinespace`) -/

/-- Errors surfaced by the writer, following the spec's taxonomy for the
four `raise` / `assert` sites. -/
inductive WriteErr
  | invalidLUTType
  | invalidSequenceShape
  | shaperSizeOutOfRange
  | cubeSizeOutOfRange
deriving DecidableEq

/-- The writer's canonical internal two-stage form plus flags. -/
structure WriterState where
  lut0 : LUT3x1D
  lut1 : LUT3D
  has_3D : Bool
  has_3x1D : Bool
  non_uniform : Bool
  name : Str
deriving DecidableEq

/-- The writer's type dispatch and normalization to the canonical two-stage
form.  Returns the state together with the caller-visible post-state of the
input: `LUT[0] = LUT[0].as_LUT(LUT3x1D)` mutates a caller-supplied
`LUTSequence` whose first stage is a `LUT1D`; every other branch only
rebinds the local name, leaving the caller's value unchanged. -/
def classifyW (v : LUTValue) : Except WriteErr (WriterState × LUTValue) :=
  match v with
  | .sequence ss =>
    match ss with
    | [.lut1D a, .lut3D b] =>
      .ok ({ lut0 := as_LUT3x1D a, lut1 := b, has_3D := true, has_3x1D := true,
             non_uniform := is_domain_explicit1 a, name := b.name },
           .sequence [.lut3x1D (as_LUT3x1D a), .lut3D b])
    | [.lut3x1D a, .lut3D b] =>
      .ok ({ lut0 := a, lut1 := b, has_3D := true, has_3x1D := true,
             non_uniform := false, name := b.name }, v)
    | _ => .error .invalidSequenceShape
  | .stage (.lut1D a) =>
    .ok ({ lut0 := as_LUT3x1D a, lut1 := LUT3D_default, has_3D := false,
           has_3x1D := true, non_uniform := is_domain_explicit1 a, name := a.name }, v)
  | .stage (.lut3x1D a) =>
    .ok ({ lut0 := a, lut1 := LUT3D_default, has_3D := false, has_3x1D := true,
           non_uniform := is_domain_explicit31 a, name := a.name }, v)
  | .stage (.lut3D b) =>
    .ok ({ lut0 := LUT3x1D_default, lut1 := b, has_3D := true, has_3x1D := false,
           non_uniform := false, name := b.name }, v)
  | .other => .error .invalidLUTType

/-- `_ragged_size(table)[i]`: per-channel sample count of a sentinel-padded
matrix — the column length minus its NaN count. -/
def ragged_size (m : List (List V)) (i : ℕ) : ℕ :=
  let col := m.map (fun r => r.getD i none)
  col.length - (col.filter (fun v => v.isNone)).length

/-- Matrix entry `m[j][i]`, NaN out of range (a Python `IndexError` site;
claims stay within bounds via hypotheses). -/
def entry2 (m : List (List V)) (j i : ℕ) : V := (m.getD j []).getD i none

/-- `_format_array`: a 3-value data row at `decimals` precision. -/
def fmtArr (d : ℕ) (r : List V) : Str :=
  fmtV d (r.getD 0 none) ++ ' ' :: fmtV d (r.getD 1 none) ++ ' ' :: fmtV d (r.getD 2 none)

/-- `_format_tuple`: two space-separated values at `decimals` precision. -/
def fmtTuple (d : ℕ) (a b : V) : Str := fmtV d a ++ ' ' :: fmtV d b

/-- A sample line: each value is written as `'{0:.{1}f} '` (token plus
trailing space), then the newline. -/
def joinTrail (toks : List Str) : Str := (toks.map (fun t => t ++ [' '])).flatten

/-- The uniform-shaper sample at position `j`, channel `i`:
`domain[0][i] + j * (domain[1][i] - domain[0][i]) / (size - 1)`. -/
def interpDom (l : LUT3x1D) (j i : ℕ) : V :=
  addV (entry2 l.domain 0 i)
    (divV (mulV (some (j : ℚ)) (subV (entry2 l.domain 1 i) (entry2 l.domain 0 i)))
      (some ((size31 l : ℚ) - 1)))

/-- One shaper channel group (size line, domain-sample line, table-sample
line) of the `has_3x1D` branch. -/
def chan31 (st : WriterState) (d : ℕ) (i : ℕ) : List Str :=
  let explicit := is_domain_explicit31 st.lut0
  let size := if explicit then ragged_size st.lut0.domain i else size31 st.lut0
  let table_min := nanmin st.lut0.table
  let table_max := nanmax st.lut0.table
  [natChars size,
   joinTrail ((List.range size).map fun j =>
     fmtV d (if explicit then entry2 st.lut0.domain j i else interpDom st.lut0 j i)),
   joinTrail ((List.range size).map fun j =>
     fmtV d (if st.non_uniform then
               divV (subV (entry2 st.lut0.table j i) table_min) (subV table_max table_min)
             else entry2 st.lut0.table j i))]

/-- The three trivial 2-sample identity groups written when there is no
shaper stage (pure 3-D case), using the cube's domain bounds. -/
def trivial3DGroups (st : WriterState) (d : ℕ) : List Str :=
  ((List.range 3).map fun i =>
    [['2'],
     fmtTuple d (entry2 st.lut1.domain 0 i) (entry2 st.lut1.domain 1 i),
     fmtQ d 0 ++ ' ' :: fmtQ d 1]).flatten

/-- `LUT[1].table.reshape([-1, 3], order='F')`: flatten the cube in
column-major order; flat row `r` is grid entry
`(r % a, (r / a) % b, r / (a*b))`. -/
def flattenF3 (t : List (List (List (List V)))) : List (List V) :=
  let a := t.length
  let b := (t.headD []).length
  let c := ((t.headD []).headD []).length
  (List.range (a * b * c)).map fun r =>
    (List.range 3).map fun ch => idx4 t (r % a) ((r / a) % b) (r / (a * b)) ch

/-- The cube/table block of the `has_3D or non_uniform` branch: for a
non-uniform shaper a trivial 2-row min/max pair (the global min/max of the
shaper table), otherwise the grid dimensions and the column-major
flattened cube. -/
def tableBlock3D (st : WriterState) (d : ℕ) : List Str :=
  if st.non_uniform then
    let table_min := nanmin st.lut0.table
    let table_max := nanmax st.lut0.table
    [[], natChars 2,
     fmtArr d [table_min, table_min, table_min],
     fmtArr d [table_max, table_max, table_max]]
  else
    let t := st.lut1.table
    [[], natChars t.length ++ ' ' :: natChars (t.headD []).length ++
          ' ' :: natChars ((t.headD []).headD []).length] ++
      (flattenF3 t).map (fmtArr d)

/-- The pure 1-D uniform body: three trivial identity groups carrying the
shaper's domain bounds, then the table size and the table rows. -/
def uniformBody (st : WriterState) (d : ℕ) : List Str :=
  ((List.range 3).map fun i =>
    [['2'],
     fmtTuple d (entry2 st.lut0.domain 0 i) (entry2 st.lut0.domain 1 i),
     "0.0 1.0".toList]).flatten ++
    [[], natChars (size31 st.lut0)] ++ st.lut0.table.map (fmtArr d)

/-- All lines emitted by the writer after validation. -/
def emitLines (st : WriterState) (d : ℕ) : List Str :=
  ["CSPLUTV100".toList] ++
    (if st.has_3D then ["3D".toList, []] else ["1D".toList, []]) ++
    ["BEGIN METADATA".toList, st.name] ++
    st.lut0.comments ++ st.lut1.comments ++
    ["END METADATA".toList, []] ++
    (if st.has_3D || st.non_uniform then
      (if st.has_3x1D then ((List.range 3).map (chan31 st d)).flatten
       else trivial3DGroups st d) ++ tableBlock3D st d
     else uniformBody st d)

/-- `write_LUT_Cinespace`: type dispatch and normalization, the two size
asserts (shaper first), then serialization.  The second component is the
caller-visible post-state of the input value: the sequence mutation has
already happened when a size assert fires. -/
def write_LUT_Cinespace (v : LUTValue) (decimals : ℕ) :
    Except WriteErr (List Str) × LUTValue :=
  match classifyW v with
  | .error e => (.error e, v)
  | .ok (st, post) =>
    if st.has_3x1D ∧ ¬(2 ≤ size31 st.lut0 ∧ size31 st.lut0 ≤ 65536) then
      (.error .shaperSizeOutOfRange, post)
    else if st.has_3D ∧ ¬(2 ≤ size3 st.lut1 ∧ size3 st.lut1 ≤ 256) then
      (.error .cubeSizeOutOfRange, post)
    else (.ok (emitLines st decimals), post)

/-! ### Lemmas: the `Except` monad -/

@[simp] lemma okBind {α β : Type} {ε : Type} (a : α) (f : α → Except ε β) :
    (Except.ok a >>= f) = f a := rfl

@[simp] lemma errBind {α β : Type} {ε : Type} (e : ε) (f : α → Except ε β) :
    ((Except.error e : Except ε α) >>= f) = Except.error e := rfl

/-! ### Lemmas: decimal digits -/

lemma natDigitsAux_fuel : ∀ f g n, n < f → n < g → natDigitsAux f n = natDigitsAux g n := by
  intro f
  induction f with
  | zero => intro g n h; omega
  | succ f ih =>
    intro g n hf hg
    match g, hg with
    | g + 1, _ =>
      show natDigitsAux (f + 1) n = natDigitsAux (g + 1) n
      by_cases h10 : n < 10
      · simp [natDigitsAux, h10]
      · have hdiv : n / 10 < n := Nat.div_lt_self (by omega) (by omega)
        simp only [natDigitsAux, if_neg h10]
        rw [ih (g) (n / 10) (by omega) (by omega)]

lemma natDigits_small {n : ℕ} (h : n < 10) : natDigits n = [n] := by
  simp [natDigits, natDigitsAux, h]

lemma natDigits_step {n : ℕ} (h : 10 ≤ n) : natDigits n = natDigits (n / 10) ++ [n % 10] := by
  have hdiv : n / 10 < n := Nat.div_lt_self (by omega) (by omega)
  show natDigitsAux (n + 1) n = _
  simp only [natDigitsAux, if_neg (by omega : ¬ n < 10)]
  rw [natDigitsAux_fuel n (n / 10 + 1) (n / 10) (by omega) (by omega)]
  rfl

lemma natOfDigits_append_one (l : List ℕ) (d : ℕ) :
    natOfDigits (l ++ [d]) = 10 * natOfDigits l + d := by
  simp [natOfDigits, List.foldl_append]

lemma natOfDigits_natDigits (n : ℕ) : natOfDigits (natDigits n) = n := by
  induction n using Nat.strong_induction_on with
  | _ n ih =>
    by_cases h : n < 10
    · simp [natDigits_small h, natOfDigits]
    · have hdiv : n / 10 < n := Nat.div_lt_self (by omega) (by omega)
      rw [natDigits_step (by omega), natOfDigits_append_one, ih _ hdiv]
      omega

lemma natDigits_ne_nil (n : ℕ) : natDigits n ≠ [] := by
  by_cases h : n < 10
  · simp [natDigits_small h]
  · simp [natDigits_step (by omega : 10 ≤ n)]

lemma natDigits_lt (n : ℕ) : ∀ d ∈ natDigits n, d < 10 := by
  induction n using Nat.strong_induction_on with
  | _ n ih =>
    by_cases h : n < 10
    · simp [natDigits_small h]; omega
    · have hdiv : n / 10 < n := Nat.div_lt_self (by omega) (by omega)
      rw [natDigits_step (by omega)]
      intro d hd
      rcases List.mem_append.mp hd with h1 | h1
      · exact ih _ hdiv d h1
      · simp at h1; omega

lemma natDigits_length_le (n k : ℕ) (hk : 1 ≤ k) (h : n < 10 ^ k) :
    (natDigits n).length ≤ k := by
  induction n using Nat.strong_induction_on generalizing k with
  | _ n ih =>
    by_cases h10 : n < 10
    · simp [natDigits_small h10]; omega
    · have hdiv : n / 10 < n := Nat.div_lt_self (by omega) (by omega)
      rw [natDigits_step (by omega)]
      have hk2 : 2 ≤ k := by
        by_contra hcon
        have : k = 1 := by omega
        subst this
        simp at h; omega
      have : n / 10 < 10 ^ (k - 1) := by
        have h1 : n < 10 ^ k := h
        have : 10 ^ k = 10 ^ (k - 1) * 10 := by
          rw [← pow_succ]
          congr 1
          omega
        rw [this] at h1
        omega
      have := ih _ hdiv (k - 1) (by omega) this
      simp [List.length_append]
      omega

/-! ### Lemmas: digit characters -/

lemma isDigitC_digitChar (d : ℕ) : isDigitC (digitChar d) = true := by
  unfold digitChar
  split <;> rfl

lemma digitVal_digitChar {d : ℕ} (h : d < 10) : digitVal (digitChar d) = d := by
  interval_cases d <;> rfl

lemma not_ws_of_digit {c : Char} (h : isDigitC c = true) : isWs c = false := by
  have h1 : 48 ≤ c.toNat ∧ c.toNat ≤ 57 := by simpa [isDigitC] using h
  have key : ∀ d : Char, d.toNat < 48 → (c == d) = false := by
    intro d hd
    refine beq_eq_false_iff_ne.mpr ?_
    intro hc
    subst hc
    omega
  unfold isWs
  rw [key ' ' (by decide), key '\t' (by decide), key '\n' (by decide),
      key '\r' (by decide), key '\x0b' (by decide), key '\x0c' (by decide)]
  rfl

lemma digit_ne_dot {c : Char} (h : isDigitC c = true) : c ≠ '.' := by
  intro hc; subst hc; simp [isDigitC] at h

lemma digit_ne_dash {c : Char} (h : isDigitC c = true) : c ≠ '-' := by
  intro hc; subst hc; simp [isDigitC] at h

lemma digit_ne_plus {c : Char} (h : isDigitC c = true) : c ≠ '+' := by
  intro hc; subst hc; simp [isDigitC] at h

lemma digit_ne_n {c : Char} (h : isDigitC c = true) : c ≠ 'n' := by
  intro hc; subst hc; simp [isDigitC] at h

/-! ### Lemmas: `natChars` -/

lemma natChars_ne_nil (n : ℕ) : natChars n ≠ [] := by
  simp [natChars, natDigits_ne_nil]

lemma natChars_all_digit (n : ℕ) : (natChars n).all isDigitC = true := by
  simp [natChars, List.all_eq_true]
  intro d _
  exact isDigitC_digitChar d

lemma natOfChars_natChars (n : ℕ) : natOfChars (natChars n) = n := by
  unfold natOfChars natChars
  rw [List.map_map]
  have : (natDigits n).map (digitVal ∘ digitChar) = natDigits n := by
    conv_rhs => rw [← List.map_id (natDigits n)]
    apply List.map_congr_left
    intro d hd
    exact digitVal_digitChar (natDigits_lt n d hd)
  rw [this, natOfDigits_natDigits]

lemma parseNatCs_natChars (n : ℕ) : parseNatCs (natChars n) = some n := by
  unfold parseNatCs
  rw [if_pos]
  · rw [natOfChars_natChars]
  · simp [natChars_all_digit, List.isEmpty_iff, natChars_ne_nil]

lemma natChars_head_digit (n : ℕ) :
    ∃ c cs, natChars n = c :: cs ∧ isDigitC c = true := by
  rcases hc : natChars n with _ | ⟨c, cs⟩
  · exact absurd hc (natChars_ne_nil n)
  · refine ⟨c, cs, rfl, ?_⟩
    have := natChars_all_digit n
    rw [hc] at this
    simp [List.all_cons] at this
    exact this.1

lemma parseIntCs_natChars (n : ℕ) : parseIntCs (natChars n) = some (n : ℤ) := by
  obtain ⟨c, cs, hc, hd⟩ := natChars_head_digit n
  rw [hc, parseIntCs, if_neg (digit_ne_dash hd), if_neg (digit_ne_plus hd), ← hc,
    parseNatCs_natChars]
  rfl

/-! ### Lemmas: `splitDot` and fraction values -/

lemma splitDot_no_dot {cs : Str} (h : '.' ∉ cs) : splitDot cs = (cs, none) := by
  induction cs with
  | nil => rfl
  | cons c rest ih =>
    have hc : c ≠ '.' := fun hc => h (hc ▸ List.mem_cons_self c rest)
    have hrest : '.' ∉ rest := fun hr => h (List.mem_cons_of_mem c hr)
    simp [splitDot, hc, ih hrest]

lemma splitDot_append {A : Str} (B : Str) (h : ∀ c ∈ A, c ≠ '.') :
    splitDot (A ++ '.' :: B) = (A, some B) := by
  induction A with
  | nil => simp [splitDot]
  | cons c rest ih =>
    have hc : c ≠ '.' := h c (List.mem_cons_self c rest)
    simp only [List.cons_append, splitDot, if_neg hc, List.append_eq]
    rw [ih (fun x hx => h x (List.mem_cons_of_mem c hx))]

lemma natOfChars_padZeros (d : ℕ) (cs : Str) :
    natOfChars (padZeros d cs) = natOfChars cs := by
  unfold padZeros natOfChars
  generalize d - cs.length = k
  induction k with
  | zero => simp
  | succ k ih =>
    simp only [List.replicate_succ, List.cons_append, List.map_cons]
    show natOfDigits (digitVal '0' :: _) = _
    have : digitVal '0' = 0 := rfl
    rw [this]
    unfold natOfDigits at *
    simp only [List.foldl_cons]
    simpa using ih

lemma padZeros_all_digit {cs : Str} (d : ℕ) (h : cs.all isDigitC = true) :
    (padZeros d cs).all isDigitC = true := by
  unfold padZeros
  rw [List.all_append, h, Bool.and_true, List.all_eq_true]
  intro c hc
  rw [List.eq_of_mem_replicate hc]
  rfl

lemma padZeros_length {cs : Str} {d : ℕ} (h : cs.length ≤ d) :
    (padZeros d cs).length = d := by
  simp [padZeros]
  omega

/-! ### Lemmas: parse-format round trip -/

lemma parseUFrac_split {A : Str} (B : Str) (hA : A ≠ [])
    (hAdig : A.all isDigitC = true) (hBdig : B.all isDigitC = true) :
    parseUFrac (A ++ '.' :: B) = some ((natOfChars A : ℚ) + fracVal B) := by
  unfold parseUFrac
  rw [splitDot_append _ (fun c hc => digit_ne_dot (List.all_eq_true.mp hAdig c hc))]
  show (if (A.isEmpty && B.isEmpty) = true then none
        else if (A.all isDigitC && B.all isDigitC) = true then
          some ((natOfChars A : ℚ) + fracVal B)
        else none) = _
  rw [if_neg (by simp [List.isEmpty_iff, hA]), if_pos (by rw [hAdig, hBdig]; rfl)]

lemma parseUFrac_fmtNN (d : ℕ) (q : ℚ) : parseUFrac (fmtNN d q) = some (rdNN d q) := by
  unfold fmtNN
  rw [parseUFrac_split _ (natChars_ne_nil _) (natChars_all_digit _)
    (padZeros_all_digit d (natChars_all_digit _))]
  congr 1
  unfold fracVal rdNN
  rw [natOfChars_padZeros, natOfChars_natChars, natOfChars_natChars]
  set m := (round (q * (10 : ℚ) ^ d)).toNat with hm
  by_cases hd : d = 0
  · subst hd
    simp [padZeros, Nat.mod_one]
  · have hd1 : 1 ≤ d := by omega
    have hlen : (natChars (m % 10 ^ d)).length ≤ d := by
      unfold natChars
      rw [List.length_map]
      exact natDigits_length_le _ d hd1 (Nat.mod_lt _ (by positivity))
    rw [padZeros_length hlen]
    have hsplit : 10 ^ d * (m / 10 ^ d) + m % 10 ^ d = m := Nat.div_add_mod m (10 ^ d)
    have h10 : ((10 : ℚ) ^ d) ≠ 0 := by positivity
    field_simp
    have hQ := congrArg (fun n : ℕ => (n : ℚ)) hsplit
    push_cast at hQ
    linarith

lemma fmtNN_shape (d : ℕ) (q : ℚ) :
    ∃ c cs, fmtNN d q = c :: cs ∧ isDigitC c = true := by
  unfold fmtNN
  obtain ⟨c, cs, hc, hdig⟩ := natChars_head_digit ((round (q * (10 : ℚ) ^ d)).toNat / 10 ^ d)
  exact ⟨c, cs ++ '.' :: padZeros d (natChars ((round (q * (10 : ℚ) ^ d)).toNat % 10 ^ d)),
    by rw [hc]; rfl, hdig⟩

lemma rdV_none (d : ℕ) : rdV d none = none := rfl

lemma parseFloatCs_fmtV (d : ℕ) (v : V) : parseFloatCs (fmtV d v) = some (rdV d v) := by
  cases v with
  | none => rfl
  | some q =>
    show parseFloatCs (fmtQ d q) = some (some (rdQ d q))
    unfold fmtQ rdQ
    by_cases hq : q < 0
    · rw [if_pos hq, if_pos hq]
      have hnan : ¬ ('-' :: fmtNN d (-q) = ['n', 'a', 'n']) := by
        intro hcon
        exact absurd (List.cons.inj hcon).1 (by decide)
      rw [parseFloatCs.eq_def, if_neg hnan]
      show (if ('-' : Char) = '-' then
              (parseUFrac (fmtNN d (-q))).map (fun q => some (-q))
            else if ('-' : Char) = '+' then
              (parseUFrac (fmtNN d (-q))).map (fun q => some q)
            else (parseUFrac ('-' :: fmtNN d (-q))).map (fun q => some q)) = _
      rw [if_pos rfl, parseUFrac_fmtNN]
      rfl
    · rw [if_neg hq, if_neg hq]
      obtain ⟨c, cs, hc, hdig⟩ := fmtNN_shape d q
      have hnan : ¬ (fmtNN d q = ['n', 'a', 'n']) := by
        rw [hc]
        intro hcon
        exact absurd (List.cons.inj hcon).1 (digit_ne_n hdig)
      rw [parseFloatCs.eq_def, if_neg hnan, hc]
      show (if c = '-' then (parseUFrac cs).map (fun q => some (-q))
            else if c = '+' then (parseUFrac cs).map (fun q => some q)
            else (parseUFrac (c :: cs)).map (fun q => some q)) = _
      rw [if_neg (digit_ne_dash hdig), if_neg (digit_ne_plus hdig), ← hc, parseUFrac_fmtNN]
      rfl

lemma rdQ_zero (d : ℕ) : rdQ d 0 = 0 := by
  unfold rdQ rdNN
  rw [if_neg (by norm_num)]
  simp

lemma rdQ_one (d : ℕ) : rdQ d 1 = 1 := by
  unfold rdQ rdNN
  rw [if_neg (by norm_num)]
  have h1 : (1 : ℚ) * (10 : ℚ) ^ d = (((10 ^ d : ℕ) : ℤ) : ℚ) := by push_cast; ring
  rw [h1, round_intCast, Int.toNat_natCast]
  push_cast
  rw [div_self (by positivity)]

/-! ### Lemmas: tokens and stripping -/

/-- A well-formed token: non-empty and free of whitespace. -/
def okTok (s : Str) : Bool := !s.isEmpty && s.all (fun c => !isWs c)

lemma tokensAux_token {t : Str} (ht : t.all (fun c => !isWs c) = true) :
    ∀ rest cur, tokensAux (t ++ rest) cur = tokensAux rest (t.reverse ++ cur) := by
  induction t with
  | nil => intro rest cur; rfl
  | cons c t ih =>
    intro rest cur
    rw [List.all_cons, Bool.and_eq_true] at ht
    have hc : isWs c = false := by
      rcases ht with ⟨h1, _⟩
      simpa using h1
    simp only [List.cons_append, tokensAux, hc, Bool.false_eq_true, if_false, List.append_eq]
    rw [ih ht.2 rest (c :: cur)]
    simp

lemma tokensAux_ws_all {w : Str} (hw : w.all isWs = true) :
    ∀ cur, tokensAux w cur = if cur.isEmpty then [] else [cur.reverse] := by
  induction w with
  | nil => intro cur; rfl
  | cons c w ih =>
    intro cur
    rw [List.all_cons, Bool.and_eq_true] at hw
    simp only [tokensAux, hw.1]
    by_cases hcur : cur.isEmpty
    · simp only [hcur, if_true, ite_true]
      rw [ih hw.2 []]
      rfl
    · simp only [hcur, if_false, ite_false]
      rw [ih hw.2 []]
      rfl

lemma tokens_token_sep {A : Str} (hA : okTok A = true) (rest : Str) :
    tokens (A ++ ' ' :: rest) = A :: tokens rest := by
  rw [okTok, Bool.and_eq_true] at hA
  have hAne : A ≠ [] := by simpa [List.isEmpty_iff] using hA.1
  unfold tokens
  rw [tokensAux_token hA.2, List.append_nil]
  simp only [tokensAux]
  rw [show isWs ' ' = true from rfl]
  have hne : A.reverse.isEmpty = false := by simp [List.isEmpty_iff, hAne]
  simp [hne]

lemma tokens_single {A : Str} (hA : okTok A = true) : tokens A = [A] := by
  rw [okTok, Bool.and_eq_true] at hA
  have hAne : A ≠ [] := by simpa [List.isEmpty_iff] using hA.1
  unfold tokens
  have h0 := tokensAux_token hA.2 [] []
  rw [List.append_nil, List.append_nil] at h0
  rw [h0]
  have hne : A.reverse.isEmpty = false := by simp [List.isEmpty_iff, hAne]
  simp [tokensAux, hne]

lemma head?_rev (l : Str) : l.reverse.head? = l.getLast? := by
  induction l with
  | nil => rfl
  | cons a t ih =>
    cases t with
    | nil => rfl
    | cons b r =>
      rw [List.getLast?_cons_cons, ← ih, List.reverse_cons,
        List.head?_append_of_ne_nil _ (by simp)]

lemma dropWhile_eq_self_of_head {s : Str} (h : ∀ c, s.head? = some c → isWs c = false) :
    s.dropWhile isWs = s := by
  cases s with
  | nil => rfl
  | cons c t =>
    rw [List.dropWhile_cons, if_neg]
    simp [h c rfl]

lemma strip_eq_self {s : Str} (hhead : ∀ c, s.head? = some c → isWs c = false)
    (hlast : ∀ c, s.getLast? = some c → isWs c = false) : strip s = s := by
  unfold strip
  rw [dropWhile_eq_self_of_head hhead,
    dropWhile_eq_self_of_head (fun c hc => hlast c (by rwa [head?_rev] at hc)),
    List.reverse_reverse]

lemma okTok_head {A : Str} (hA : okTok A = true) :
    ∀ c, A.head? = some c → isWs c = false := by
  rw [okTok, Bool.and_eq_true] at hA
  intro c hc
  have hmem : c ∈ A := by
    cases A with
    | nil => simp at hc
    | cons a t =>
      simp at hc
      subst hc
      exact List.mem_cons_self a t
  have := List.all_eq_true.mp hA.2 c hmem
  simpa using this

lemma okTok_last {A : Str} (hA : okTok A = true) :
    ∀ c, A.getLast? = some c → isWs c = false := by
  rw [okTok, Bool.and_eq_true] at hA
  intro c hc
  have hmem : c ∈ A := by
    have := List.mem_getLast?_eq_getLast (l := A) (x := c) hc
    rcases this with ⟨h, rfl⟩
    exact List.getLast_mem h
  have := List.all_eq_true.mp hA.2 c hmem
  simpa using this

lemma strip_okTok {A : Str} (hA : okTok A = true) : strip A = A :=
  strip_eq_self (okTok_head hA) (okTok_last hA)

lemma okTok_ne_nil {A : Str} (hA : okTok A = true) : A ≠ [] := by
  rw [okTok, Bool.and_eq_true] at hA
  simpa [List.isEmpty_iff] using hA.1

/-- Stripping a line `A ++ ' ' :: B` whose first token is well formed and
whose tail ends in a non-whitespace character leaves it unchanged. -/
lemma strip_sep_gen {A B : Str} (hA : okTok A = true) (hBne : B ≠ [])
    (hBl : ∀ c, B.getLast? = some c → isWs c = false) :
    strip (A ++ ' ' :: B) = A ++ ' ' :: B := by
  apply strip_eq_self
  · intro c hc
    rw [List.head?_append_of_ne_nil _ (okTok_ne_nil hA)] at hc
    exact okTok_head hA c hc
  · intro c hc
    rw [List.getLast?_append_cons] at hc
    cases B with
    | nil => exact absurd rfl hBne
    | cons b r =>
      rw [List.getLast?_cons_cons] at hc
      exact hBl c hc

/-- Stripping a two-token line leaves it unchanged. -/
lemma strip_sep2 {A B : Str} (hA : okTok A = true) (hB : okTok B = true) :
    strip (A ++ ' ' :: B) = A ++ ' ' :: B :=
  strip_sep_gen hA (okTok_ne_nil hB) (okTok_last hB)

/-- Stripping a three-token line leaves it unchanged. -/
lemma strip_sep3 {A B C : Str} (hA : okTok A = true) (hB : okTok B = true)
    (hC : okTok C = true) :
    strip (A ++ ' ' :: B ++ ' ' :: C) = A ++ ' ' :: B ++ ' ' :: C := by
  have hassoc : A ++ ' ' :: B ++ ' ' :: C = A ++ ' ' :: (B ++ ' ' :: C) := by simp
  rw [hassoc]
  refine strip_sep_gen hA (by simp [okTok_ne_nil hB]) ?_
  intro c hc
  rw [List.getLast?_append_cons] at hc
  cases C with
  | nil => exact absurd rfl (okTok_ne_nil hC)
  | cons b r =>
    rw [List.getLast?_cons_cons] at hc
    exact okTok_last hC c hc

lemma tokens_sep2 {A B : Str} (hA : okTok A = true) (hB : okTok B = true) :
    tokens (A ++ ' ' :: B) = [A, B] := by
  rw [tokens_token_sep hA, tokens_single hB]

lemma tokens_sep3 {A B C : Str} (hA : okTok A = true) (hB : okTok B = true)
    (hC : okTok C = true) :
    tokens (A ++ ' ' :: B ++ ' ' :: C) = [A, B, C] := by
  have hassoc : A ++ ' ' :: B ++ ' ' :: C = A ++ ' ' :: (B ++ ' ' :: C) := by simp
  rw [hassoc, tokens_token_sep hA, tokens_token_sep hB, tokens_single hC]

/-! ### Lemmas: formatted tokens are well formed -/

lemma okTok_of_digits {s : Str} (hne : s ≠ []) (hdig : s.all isDigitC = true) :
    okTok s = true := by
  rw [okTok, Bool.and_eq_true]
  constructor
  · simpa [List.isEmpty_iff] using hne
  · rw [List.all_eq_true] at hdig ⊢
    intro c hc
    simpa using not_ws_of_digit (hdig c hc)

lemma okTok_natChars (n : ℕ) : okTok (natChars n) = true :=
  okTok_of_digits (natChars_ne_nil n) (natChars_all_digit n)

lemma okTok_fmtNN (d : ℕ) (q : ℚ) : okTok (fmtNN d q) = true := by
  rw [okTok, Bool.and_eq_true]
  constructor
  · obtain ⟨c, cs, hc, _⟩ := fmtNN_shape d q
    simp [hc]
  · unfold fmtNN
    rw [List.all_append, Bool.and_eq_true]
    constructor
    · rw [List.all_eq_true]
      intro c hc
      simpa using not_ws_of_digit (List.all_eq_true.mp (natChars_all_digit _) c hc)
    · rw [List.all_cons, Bool.and_eq_true]
      refine ⟨by decide, ?_⟩
      rw [List.all_eq_true]
      intro c hc
      simpa using not_ws_of_digit
        (List.all_eq_true.mp (padZeros_all_digit _ (natChars_all_digit _)) c hc)

lemma okTok_fmtV (d : ℕ) (v : V) : okTok (fmtV d v) = true := by
  cases v with
  | none => rfl
  | some q =>
    show okTok (fmtQ d q) = true
    unfold fmtQ
    by_cases hq : q < 0
    · rw [if_pos hq]
      have := okTok_fmtNN d (-q)
      rw [okTok, Bool.and_eq_true] at this ⊢
      refine ⟨rfl, ?_⟩
      rw [List.all_cons, Bool.and_eq_true]
      exact ⟨by decide, this.2⟩
    · rw [if_neg hq]
      exact okTok_fmtNN d q

/-! ### Lemmas: parsing the writer's formatted lines -/

lemma fmtTuple_eq (d : ℕ) (a b : V) : fmtTuple d a b = fmtV d a ++ ' ' :: fmtV d b := rfl

lemma strip_fmtTuple (d : ℕ) (a b : V) : strip (fmtTuple d a b) = fmtTuple d a b :=
  strip_sep2 (okTok_fmtV d a) (okTok_fmtV d b)

lemma parseFloatRowCs_fmtTuple (d : ℕ) (a b : V) :
    parseFloatRowCs (fmtTuple d a b) = some [rdV d a, rdV d b] := by
  unfold parseFloatRowCs
  rw [fmtTuple_eq, tokens_sep2 (okTok_fmtV d a) (okTok_fmtV d b)]
  simp [mapMOpt, parseFloatCs_fmtV]

lemma fmtArr_eq (d : ℕ) (x y z : V) :
    fmtArr d [x, y, z] = fmtV d x ++ ' ' :: fmtV d y ++ ' ' :: fmtV d z := rfl

lemma strip_fmtArr (d : ℕ) (x y z : V) :
    strip (fmtArr d [x, y, z]) = fmtArr d [x, y, z] := by
  rw [fmtArr_eq]
  exact strip_sep3 (okTok_fmtV d x) (okTok_fmtV d y) (okTok_fmtV d z)

lemma parseFloatRowCs_fmtArr (d : ℕ) (x y z : V) :
    parseFloatRowCs (fmtArr d [x, y, z]) = some [rdV d x, rdV d y, rdV d z] := by
  unfold parseFloatRowCs
  rw [fmtArr_eq, tokens_sep3 (okTok_fmtV d x) (okTok_fmtV d y) (okTok_fmtV d z)]
  simp [mapMOpt, parseFloatCs_fmtV]

lemma strip_natChars (n : ℕ) : strip (natChars n) = natChars n :=
  strip_okTok (okTok_natChars n)

lemma fmtQ01_line (d : ℕ) :
    parseFloatRowCs (fmtQ d 0 ++ ' ' :: fmtQ d 1) = some [some 0, some 1] := by
  unfold parseFloatRowCs
  have h0 : fmtQ d 0 = fmtV d (some 0) := rfl
  have h1 : fmtQ d 1 = fmtV d (some 1) := rfl
  rw [h0, h1, tokens_sep2 (okTok_fmtV d (some 0)) (okTok_fmtV d (some 1))]
  simp only [mapMOpt, parseFloatCs_fmtV, Option.map_some]
  show some [rdV d (some 0), rdV d (some 1)] = _
  simp [rdV, rdQ_zero, rdQ_one]

lemma strip_fmtQ01 (d : ℕ) :
    strip (fmtQ d 0 ++ ' ' :: fmtQ d 1) = fmtQ d 0 ++ ' ' :: fmtQ d 1 :=
  strip_sep2 (okTok_fmtV d (some 0)) (okTok_fmtV d (some 1))

/-! ### Lemmas: line access and normalization -/

@[simp] lemma lget_cons_zero (a : Str) (l : List Str) : lget (a :: l) 0 = .ok a := by
  simp [lget]

@[simp] lemma lget_cons_succ (a : Str) (l : List Str) (n : ℕ) :
    lget (a :: l) (n + 1) = lget l n := by
  simp [lget]

@[simp] lemma lget_nil (n : ℕ) : lget [] n = .error .indexErr := by
  cases n <;> rfl

lemma normalizeLines_append (a b : List Str) :
    normalizeLines (a ++ b) = normalizeLines a ++ normalizeLines b := by
  simp [normalizeLines, List.filter_append]

lemma normalizeLines_cons_kept {l : Str} (rest : List Str) (h1 : strip l = l)
    (h2 : l ≠ []) : normalizeLines (l :: rest) = l :: normalizeLines rest := by
  simp only [normalizeLines, List.map_cons, h1]
  rw [List.filter_cons_of_pos]
  simpa [List.isEmpty_iff] using h2

lemma normalizeLines_cons_blank (rest : List Str) :
    normalizeLines (([] : Str) :: rest) = normalizeLines rest := by
  simp [normalizeLines, strip]

lemma normalizeLines_self {ls : List Str} (h : ∀ l ∈ ls, strip l = l ∧ l ≠ []) :
    normalizeLines ls = ls := by
  induction ls with
  | nil => rfl
  | cons l rest ih =>
    obtain ⟨h1, h2⟩ := h l (List.mem_cons_self l rest)
    rw [normalizeLines_cons_kept rest h1 h2,
      ih (fun x hx => h x (List.mem_cons_of_mem l hx))]

/-! ### Lemmas: the metadata scan -/

lemma metaScanAux_to_end (ms : List Str)
    (h : ∀ m ∈ ms, m ≠ "BEGIN METADATA".toList ∧ m ≠ "END METADATA".toList) :
    ∀ rest i acc, metaScanAux (ms ++ "END METADATA".toList :: rest) i true acc =
      (i + ms.length, acc.reverse ++ ms) := by
  induction ms with
  | nil =>
    intro rest i acc
    show metaScanAux ("END METADATA".toList :: rest) i true acc = _
    rw [metaScanAux, if_neg (by decide), if_pos rfl]
    simp
  | cons m ms ih =>
    intro rest i acc
    obtain ⟨h1, h2⟩ := h m (List.mem_cons_self m ms)
    show metaScanAux (m :: (ms ++ "END METADATA".toList :: rest)) i true acc = _
    rw [metaScanAux, if_neg h1, if_neg h2, if_pos rfl]
    rw [ih (fun x hx => h x (List.mem_cons_of_mem m hx)) rest (i + 1) (m :: acc)]
    simp only [List.reverse_cons, List.append_assoc, List.singleton_append,
      List.length_cons]
    rw [Prod.mk.injEq]
    exact ⟨by omega, rfl⟩

/-! ### Lemmas: parsing blocks of emitted rows -/

lemma mapMExc_fmtArr (d : ℕ) (rows : List (List V))
    (h : ∀ r ∈ rows, r.length = 3) :
    mapMExc (fun l =>
      match parseFloatRowCs l with
      | some r => (.ok r : Except ReadErr (List V))
      | none => .error .valueErr) (rows.map (fmtArr d)) =
    .ok (rows.map (fun r => r.map (rdV d))) := by
  induction rows with
  | nil => rfl
  | cons r rows ih =>
    obtain ⟨x, y, z, rfl⟩ := List.length_eq_three.mp (h r (List.mem_cons_self r rows))
    simp only [List.map_cons, mapMExc, parseFloatRowCs_fmtArr]
    rw [ih (fun r hr => h r (List.mem_cons_of_mem _ hr))]
    rfl

lemma normalize_fmtArr_rows (d : ℕ) (rows : List (List V))
    (h : ∀ r ∈ rows, r.length = 3) :
    normalizeLines (rows.map (fmtArr d)) = rows.map (fmtArr d) := by
  apply @normalizeLines_self
  intro l hl
  obtain ⟨r, hr, rfl⟩ := List.mem_map.mp hl
  obtain ⟨x, y, z, rfl⟩ := List.length_eq_three.mp (h r hr)
  refine ⟨strip_fmtArr d x y z, ?_⟩
  rw [fmtArr_eq]
  simp

lemma normalize_comments {cs : List Str}
    (h : ∀ c ∈ cs, strip c = c ∧ c ≠ []) : normalizeLines cs = cs :=
  normalizeLines_self h

/-! ### The round-trip development -/

/-- Rounding an entire row at `d` decimal places. -/
def roundRow (d : ℕ) (r : List V) : List V := r.map (rdV d)

/-- A `LUT3x1D` rounded at `d` decimal places (name and comments kept). -/
def roundL31 (d : ℕ) (L : LUT3x1D) : LUT3x1D :=
  { table := L.table.map (roundRow d)
    name := L.name
    domain := L.domain.map (roundRow d)
    comments := L.comments }

/-- Rounding a 4-axis cube table at `d` decimal places. -/
def map4V (f : V → V) (t : List (List (List (List V)))) :
    List (List (List (List V))) :=
  t.map (fun p => p.map (fun q => q.map (fun r => r.map f)))

/-- A `LUT3D` rounded at `d` decimal places (name and comments kept). -/
def roundL3 (d : ℕ) (M : LUT3D) : LUT3D :=
  { table := map4V (rdV d) M.table
    name := M.name
    domain := M.domain.map (roundRow d)
    comments := M.comments }

/-- A metadata line that survives normalization and the metadata scan:
already stripped, non-blank, and distinct from the two marker lines. -/
def metaOk (s : Str) : Prop :=
  strip s = s ∧ s ≠ [] ∧ s ≠ "BEGIN METADATA".toList ∧ s ≠ "END METADATA".toList

instance (s : Str) : Decidable (metaOk s) := by
  unfold metaOk
  infer_instance

/-- The writer state for a single uniform-domain `LUT3x1D`. -/
def st31 (L : LUT3x1D) : WriterState :=
  { lut0 := L, lut1 := LUT3D_default, has_3D := false, has_3x1D := true,
    non_uniform := false, name := L.name }

/-- The pre-LUT matrix that reading back a uniform `LUT3x1D` file yields. -/
def pre31 (L : LUT3x1D) (d : ℕ) : List (List V) :=
  [[rdV d (entry2 L.domain 0 0), rdV d (entry2 L.domain 1 0)], [some 0, some 1],
   [rdV d (entry2 L.domain 0 1), rdV d (entry2 L.domain 1 1)], [some 0, some 1],
   [rdV d (entry2 L.domain 0 2), rdV d (entry2 L.domain 1 2)], [some 0, some 1]]

/-- The nine shaper-group lines plus the table-size line of the uniform
1-D body, after normalization. -/
def grp31 (L : LUT3x1D) (d : ℕ) : List Str :=
  [['2'], fmtTuple d (entry2 L.domain 0 0) (entry2 L.domain 1 0), "0.0 1.0".toList,
   ['2'], fmtTuple d (entry2 L.domain 0 1) (entry2 L.domain 1 1), "0.0 1.0".toList,
   ['2'], fmtTuple d (entry2 L.domain 0 2) (entry2 L.domain 1 2), "0.0 1.0".toList]

lemma emit31_eq (L : LUT3x1D) (d : ℕ) :
    emitLines (st31 L) d =
      ["CSPLUTV100".toList, "1D".toList, [], "BEGIN METADATA".toList, L.name] ++
        L.comments ++ ["END METADATA".toList, []] ++
        ([['2'], fmtTuple d (entry2 L.domain 0 0) (entry2 L.domain 1 0), "0.0 1.0".toList,
          ['2'], fmtTuple d (entry2 L.domain 0 1) (entry2 L.domain 1 1), "0.0 1.0".toList,
          ['2'], fmtTuple d (entry2 L.domain 0 2) (entry2 L.domain 1 2), "0.0 1.0".toList,
          [], natChars (size31 L)]) ++ L.table.map (fmtArr d) := by
  simp [emitLines, uniformBody, st31, LUT3D_default, fmtTuple,
    List.range_succ, List.append_assoc]

lemma fmtTuple_ne_nil (d : ℕ) (a b : V) : fmtTuple d a b ≠ [] := by
  rw [fmtTuple_eq]
  simp

lemma normalize_emit31 (L : LUT3x1D) (d : ℕ) (hname : metaOk L.name)
    (hcom : ∀ c ∈ L.comments, metaOk c) (htabw : ∀ r ∈ L.table, r.length = 3) :
    normalizeLines (emitLines (st31 L) d) =
      (["CSPLUTV100".toList, "1D".toList, "BEGIN METADATA".toList, L.name] ++
        L.comments ++ ["END METADATA".toList]) ++
      (grp31 L d ++ [natChars (size31 L)] ++ L.table.map (fmtArr d)) := by
  rw [emit31_eq]
  rw [show (["CSPLUTV100".toList, "1D".toList, [], "BEGIN METADATA".toList, L.name] ++
        L.comments ++ ["END METADATA".toList, []] ++
        ([['2'], fmtTuple d (entry2 L.domain 0 0) (entry2 L.domain 1 0), "0.0 1.0".toList,
          ['2'], fmtTuple d (entry2 L.domain 0 1) (entry2 L.domain 1 1), "0.0 1.0".toList,
          ['2'], fmtTuple d (entry2 L.domain 0 2) (entry2 L.domain 1 2), "0.0 1.0".toList,
          [], natChars (size31 L)]) ++ L.table.map (fmtArr d) : List Str) =
      ["CSPLUTV100".toList, "1D".toList] ++ ([] : Str) ::
        (["BEGIN METADATA".toList, L.name] ++
        (L.comments ++ (["END METADATA".toList] ++ (([] : Str) ::
        (([['2'], fmtTuple d (entry2 L.domain 0 0) (entry2 L.domain 1 0), "0.0 1.0".toList,
          ['2'], fmtTuple d (entry2 L.domain 0 1) (entry2 L.domain 1 1), "0.0 1.0".toList,
          ['2'], fmtTuple d (entry2 L.domain 0 2) (entry2 L.domain 1 2), "0.0 1.0".toList] ++
          (([] : Str) :: ([natChars (size31 L)] ++ L.table.map (fmtArr d)))))))))
    from by simp]
  rw [normalizeLines_append]
  rw [normalizeLines_cons_blank]
  rw [normalizeLines_append]
  rw [normalizeLines_append]
  rw [normalizeLines_append]
  rw [normalizeLines_cons_blank]
  rw [normalizeLines_append]
  rw [normalizeLines_cons_blank]
  rw [normalizeLines_append]
  rw [normalize_fmtArr_rows d _ htabw]
  rw [@normalizeLines_self (["CSPLUTV100".toList, "1D".toList])
    (by intro l hl; fin_cases hl <;> exact ⟨by decide, by decide⟩)]
  rw [@normalizeLines_self (["BEGIN METADATA".toList, L.name])
    (by
      intro l hl
      fin_cases hl
      · exact ⟨by decide, by decide⟩
      · exact ⟨hname.1, hname.2.1⟩)]
  rw [normalize_comments (fun c hc => ⟨(hcom c hc).1, (hcom c hc).2.1⟩)]
  rw [@normalizeLines_self (["END METADATA".toList])
    (by intro l hl; fin_cases hl; exact ⟨by decide, by decide⟩)]
  rw [@normalizeLines_self
    ([['2'], fmtTuple d (entry2 L.domain 0 0) (entry2 L.domain 1 0), "0.0 1.0".toList,
      ['2'], fmtTuple d (entry2 L.domain 0 1) (entry2 L.domain 1 1), "0.0 1.0".toList,
      ['2'], fmtTuple d (entry2 L.domain 0 2) (entry2 L.domain 1 2), "0.0 1.0".toList])
    (by
      intro l hl
      fin_cases hl <;>
        first
        | exact ⟨by decide, by decide⟩
        | exact ⟨strip_fmtTuple d _ _, fmtTuple_ne_nil d _ _⟩)]
  rw [@normalizeLines_self ([natChars (size31 L)])
    (by intro l hl; fin_cases hl; exact ⟨strip_natChars _, natChars_ne_nil _⟩)]
  simp [grp31]

lemma metaScan_full (name : Str) (comments : List Str) (rest : List Str)
    (hname : metaOk name) (hcom : ∀ c ∈ comments, metaOk c) :
    metaScanAux ("BEGIN METADATA".toList :: name ::
        (comments ++ "END METADATA".toList :: rest)) 0 false [] =
      (2 + comments.length, name :: comments) := by
  rw [metaScanAux, if_pos rfl]
  rw [metaScanAux, if_neg hname.2.2.1, if_neg hname.2.2.2, if_pos rfl]
  rw [metaScanAux_to_end comments
    (fun c hc => ⟨(hcom c hc).2.2.1, (hcom c hc).2.2.2⟩) rest (0 + 1 + 1) [name]]
  rw [Prod.mk.injEq]
  exact ⟨by omega, by simp⟩

lemma padRow_exact {N : ℤ} {r : List V} (h : (r.length : ℤ) = N) :
    padRow N r = .ok r := by
  unfold padRow
  rw [if_pos h]

lemma parseUFrac_00 : parseUFrac ("0.0".toList) = some 0 := by
  have hsplit : splitDot ("0.0".toList) = (['0'], some ['0']) := by decide
  unfold parseUFrac
  rw [hsplit]
  show (if ((['0'] : Str).isEmpty && (['0'] : Str).isEmpty) = true then none
        else if ((['0'] : Str).all isDigitC && (['0'] : Str).all isDigitC) = true then
          some ((natOfChars ['0'] : ℚ) + fracVal ['0'])
        else none) = some 0
  rw [if_neg (by decide), if_pos (by decide)]
  congr 1
  rw [show natOfChars ['0'] = 0 from by decide]
  unfold fracVal
  rw [show natOfChars ['0'] = 0 from by decide]
  norm_num

lemma parseUFrac_10 : parseUFrac ("1.0".toList) = some 1 := by
  have hsplit : splitDot ("1.0".toList) = (['1'], some ['0']) := by decide
  unfold parseUFrac
  rw [hsplit]
  show (if ((['1'] : Str).isEmpty && (['0'] : Str).isEmpty) = true then none
        else if ((['1'] : Str).all isDigitC && (['0'] : Str).all isDigitC) = true then
          some ((natOfChars ['1'] : ℚ) + fracVal ['0'])
        else none) = some 1
  rw [if_neg (by decide), if_pos (by decide)]
  congr 1
  rw [show natOfChars ['1'] = 1 from by decide]
  unfold fracVal
  rw [show natOfChars ['0'] = 0 from by decide]
  norm_num

lemma parseFloat_00 : parseFloatCs ("0.0".toList) = some (some 0) := by
  unfold parseFloatCs
  rw [if_neg (by decide)]
  show (if ('0' : Char) = '-' then (parseUFrac ['.', '0']).map (fun q => some (-q))
        else if ('0' : Char) = '+' then (parseUFrac ['.', '0']).map (fun q => some q)
        else (parseUFrac ('0' :: ['.', '0'])).map (fun q => some q)) = _
  rw [if_neg (by decide), if_neg (by decide)]
  rw [show ('0' :: ['.', '0'] : Str) = "0.0".toList from rfl, parseUFrac_00]
  rfl

lemma parseFloat_10 : parseFloatCs ("1.0".toList) = some (some 1) := by
  unfold parseFloatCs
  rw [if_neg (by decide)]
  show (if ('1' : Char) = '-' then (parseUFrac ['.', '0']).map (fun q => some (-q))
        else if ('1' : Char) = '+' then (parseUFrac ['.', '0']).map (fun q => some q)
        else (parseUFrac ('1' :: ['.', '0'])).map (fun q => some q)) = _
  rw [if_neg (by decide), if_neg (by decide)]
  rw [show ('1' :: ['.', '0'] : Str) = "1.0".toList from rfl, parseUFrac_10]
  rfl

lemma parseRow_unity : parseFloatRowCs ("0.0 1.0".toList) = some [some 0, some 1] := by
  have hline : "0.0 1.0".toList = "0.0".toList ++ ' ' :: "1.0".toList := by decide
  rw [hline]
  unfold parseFloatRowCs
  rw [tokens_sep2 (by decide) (by decide)]
  simp only [mapMOpt, parseFloat_00, parseFloat_10]
  rfl

lemma parseDomain_grp31 (L : LUT3x1D) (d : ℕ) :
    _parse_domain_section (grp31 L d) = .ok (pre31 L d) := by
  unfold grp31 _parse_domain_section intAt floatRowAt
  simp only [lget_cons_zero, lget_cons_succ, okBind]
  rw [show parseIntCs ['2'] = some (2 : ℤ) from by decide]
  simp only [okBind]
  rw [parseRow_unity]
  simp only [parseFloatRowCs_fmtTuple, okBind]
  rfl

lemma all_widths_check (rows : List (List V)) (h : ∀ r ∈ rows, r.length = 3) :
    (rows.all (fun r => r.length = (rows.headD []).length)) = true := by
  cases rows with
  | nil => rfl
  | cons r t =>
    rw [List.all_eq_true]
    intro x hx
    have hr := h r (List.mem_cons_self r t)
    have hxl := h x hx
    simp [List.headD_cons, hxl, hr]

lemma parseTable_31 (L : LUT3x1D) (d : ℕ) (htabw : ∀ r ∈ L.table, r.length = 3) :
    _parse_table_section (natChars (size31 L) :: L.table.map (fmtArr d)) =
      .ok ([(size31 L : ℤ)], L.table.map (fun r => r.map (rdV d))) := by
  unfold _parse_table_section
  simp only [lget_cons_zero, okBind]
  rw [tokens_single (okTok_natChars _)]
  simp only [mapMOpt, parseIntCs_natChars, okBind, List.drop_succ_cons, List.drop_zero]
  rw [mapMExc_fmtArr d _ htabw]
  simp only [Option.map_some', okBind]
  rw [if_pos (all_widths_check _ (by
    intro r hr
    obtain ⟨r0, hr0, rfl⟩ := List.mem_map.mp hr
    simp [htabw r0 hr0]))]

lemma parseStages_emit31 (L : LUT3x1D) (d : ℕ) (hname : metaOk L.name)
    (hcom : ∀ c ∈ L.comments, metaOk c) (htabw : ∀ r ∈ L.table, r.length = 3) :
    parseStages (emitLines (st31 L) d) =
      .ok (false, L.name, L.comments, pre31 L d, [(size31 L : ℤ)],
        L.table.map (fun r => r.map (rdV d))) := by
  have hne : ¬ (emitLines (st31 L) d).length = 0 := by
    rw [emit31_eq]; simp
  have hnorm := normalize_emit31 L d hname hcom htabw
  unfold parseStages
  rw [if_neg hne, hnorm]
  simp only [List.append_assoc, List.cons_append, List.nil_append, List.singleton_append]
  simp only [lget_cons_zero, okBind]
  rw [if_neg (by simp)]
  simp only [lget_cons_succ, lget_cons_zero, okBind]
  rw [if_neg (by simp)]
  simp only [List.drop_succ_cons, List.drop_zero]
  rw [metaScan_full L.name L.comments _ hname hcom]
  dsimp only
  simp only [_parse_metadata_section]
  have hd1 : List.drop (2 + (2 + L.comments.length))
      (("1D".toList : Str) :: "BEGIN METADATA".toList :: L.name ::
        (L.comments ++ "END METADATA".toList ::
          (grp31 L d ++ natChars (size31 L) :: List.map (fmtArr d) L.table))) =
      grp31 L d ++ natChars (size31 L) :: List.map (fmtArr d) L.table := by
    rw [show (("1D".toList : Str) :: "BEGIN METADATA".toList :: L.name ::
        (L.comments ++ "END METADATA".toList ::
          (grp31 L d ++ natChars (size31 L) :: List.map (fmtArr d) L.table))) =
      ((["1D".toList, "BEGIN METADATA".toList, L.name] ++ L.comments ++
          ["END METADATA".toList]) ++
        (grp31 L d ++ natChars (size31 L) :: List.map (fmtArr d) L.table)) from by simp]
    rw [show 2 + (2 + L.comments.length) =
      ((["1D".toList, "BEGIN METADATA".toList, L.name] ++ L.comments ++
          ["END METADATA".toList] : List Str)).length from by simp; omega]
    exact List.drop_left _ _
  have hd2 : List.drop (2 + (2 + L.comments.length) + 6)
      (L.comments ++ "END METADATA".toList ::
        (grp31 L d ++ natChars (size31 L) :: List.map (fmtArr d) L.table)) =
      natChars (size31 L) :: List.map (fmtArr d) L.table := by
    rw [show (L.comments ++ "END METADATA".toList ::
        (grp31 L d ++ natChars (size31 L) :: List.map (fmtArr d) L.table)) =
      ((L.comments ++ ["END METADATA".toList] ++ grp31 L d) ++
        (natChars (size31 L) :: List.map (fmtArr d) L.table)) from by simp]
    rw [show 2 + (2 + L.comments.length) + 6 =
      ((L.comments ++ ["END METADATA".toList] ++ grp31 L d : List Str)).length from by
        simp [grp31]; omega]
    exact List.drop_left _ _
  rw [hd1, hd2]
  rw [show (9 : ℕ) = (grp31 L d).length from rfl, List.take_left]
  rw [parseDomain_grp31, parseTable_31 L d htabw]
  simp only [okBind]
  rw [show (decide ("1D".toList = "3D".toList)) = false from by decide]

lemma pre_unity_pre31 (L : LUT3x1D) (d : ℕ) : pre_unity (pre31 L d) = true := by
  unfold pre_unity pre31
  rw [Bool.and_eq_true]
  exact ⟨rfl, by rw [decide_eq_true_eq]; rfl⟩

lemma collapse_domain_pre31 (L : LUT3x1D) (d : ℕ) (hdom2 : L.domain.length = 2)
    (hdomw : ∀ r ∈ L.domain, r.length = 3) :
    collapse_domain (pre31 L d) = L.domain.map (roundRow d) := by
  obtain ⟨r0, r1, hd⟩ := List.length_eq_two.mp hdom2
  obtain ⟨x0, x1, x2, rfl⟩ := List.length_eq_three.mp (hdomw r0 (by rw [hd]; simp))
  obtain ⟨y0, y1, y2, rfl⟩ := List.length_eq_three.mp (hdomw r1 (by rw [hd]; simp))
  unfold collapse_domain pre31 entry2
  rw [hd]
  rfl

lemma read_emit31 (L : LUT3x1D) (d : ℕ) (hname : metaOk L.name)
    (hcom : ∀ c ∈ L.comments, metaOk c) (hdom2 : L.domain.length = 2)
    (hdomw : ∀ r ∈ L.domain, r.length = 3) (htabw : ∀ r ∈ L.table, r.length = 3) :
    read_LUT_Cinespace (emitLines (st31 L) d) =
      .ok (.stage (.lut3x1D (roundL31 d L))) := by
  unfold read_LUT_Cinespace
  rw [parseStages_emit31 L d hname hcom htabw]
  simp only [okBind]
  rw [if_neg (by simp [size31])]
  unfold classifyRead
  rw [pre_unity_pre31 L d]
  rw [if_neg (by simp), if_pos (by simp)]
  rw [collapse_domain_pre31 L d hdom2 hdomw]
  rfl

lemma write31_ok (L : LUT3x1D) (d : ℕ) (hdom2 : L.domain.length = 2)
    (hlo : 2 ≤ size31 L) (hhi : size31 L ≤ 65536) :
    (write_LUT_Cinespace (.stage (.lut3x1D L)) d).1 = .ok (emitLines (st31 L) d) := by
  have hexp : is_domain_explicit31 L = false := by
    simp [is_domain_explicit31, hdom2]
  simp only [write_LUT_Cinespace, classifyW, hexp]
  rw [if_neg (by simp [hlo, hhi]), if_neg (by simp)]
  rfl

/-! ### The column-major reshape and its inverse -/

/-- A cube table of exact shape `(a, b, c, 3)`. -/
def shape4 (t : List (List (List (List V)))) (a b c : ℕ) : Prop :=
  t.length = a ∧ ∀ p ∈ t, p.length = b ∧ ∀ q ∈ p, q.length = c ∧ ∀ r ∈ q, r.length = 3

instance (t : List (List (List (List V)))) (a b c : ℕ) : Decidable (shape4 t a b c) := by
  unfold shape4
  infer_instance

lemma getD_map {α β : Type} (f : α → β) (l : List α) (i : ℕ) (dA : α) :
    (l.map f).getD i (f dA) = f (l.getD i dA) := by
  induction l generalizing i with
  | nil => cases i <;> rfl
  | cons a t ih =>
    cases i with
    | zero => rfl
    | succ n =>
      simp only [List.map_cons, List.getD_cons_succ]
      exact ih n

lemma getD_range_map {β : Type} (f : ℕ → β) {n i : ℕ} (dB : β) (h : i < n) :
    ((List.range n).map f).getD i dB = f i := by
  rw [List.getD_eq_getElem?_getD]
  rw [List.getElem?_map]
  rw [List.getElem?_range h]
  rfl

lemma colmajor_index (i j k a b c : ℕ) (hi : i < a) (hj : j < b) (hk : k < c) :
    (i + a * j + a * b * k) % a = i ∧ ((i + a * j + a * b * k) / a) % b = j ∧
      (i + a * j + a * b * k) / (a * b) = k ∧ i + a * j + a * b * k < a * b * c := by
  have ha : 0 < a := by omega
  have hab : 0 < a * b := Nat.mul_pos ha (by omega)
  have hsum : i + a * j + a * b * k = i + a * (j + b * k) := by ring
  have hsum2 : i + a * j + a * b * k = (i + a * j) + a * b * k := by ring
  have hlt1 : i + a * j < a * b := by
    calc i + a * j < a + a * j := by omega
    _ = a * (1 + j) := by ring
    _ ≤ a * b := Nat.mul_le_mul_left a (by omega)
  refine ⟨?_, ?_, ?_, ?_⟩
  · rw [hsum, Nat.add_mul_mod_self_left, Nat.mod_eq_of_lt hi]
  · rw [hsum, Nat.add_mul_div_left _ _ ha, Nat.div_eq_of_lt hi, Nat.zero_add,
      Nat.add_mul_mod_self_left, Nat.mod_eq_of_lt hj]
  · rw [hsum2, Nat.add_mul_div_left _ _ hab, Nat.div_eq_of_lt hlt1, Nat.zero_add]
  · calc i + a * j + a * b * k < a * b + a * b * k := by omega
    _ = a * b * (1 + k) := by ring
    _ ≤ a * b * c := Nat.mul_le_mul_left (a * b) (by omega)

lemma flattenF3_row_len (t : List (List (List (List V)))) :
    ∀ r ∈ flattenF3 t, r.length = 3 := by
  intro r hr
  obtain ⟨m, _, rfl⟩ := List.mem_map.mp hr
  simp

lemma flattenF3_length (t : List (List (List (List V)))) :
    (flattenF3 t).length =
      t.length * (t.headD []).length * ((t.headD []).headD []).length := by
  simp [flattenF3]

/-- On an exactly shaped table, the writer's flattening produces the
explicit column-major row list. -/
lemma flattenF3_eq {t : List (List (List (List V)))} {a b c : ℕ}
    (h : shape4 t a b c) :
    flattenF3 t = (List.range (a * b * c)).map (fun r =>
      (List.range 3).map fun ch => idx4 t (r % a) ((r / a) % b) (r / (a * b)) ch) := by
  obtain ⟨ha, hrest⟩ := h
  cases t with
  | nil =>
    subst ha
    simp [flattenF3]
  | cons p t' =>
    have hb : p.length = b := (hrest p (List.mem_cons_self p t')).1
    cases p with
    | nil =>
      subst ha
      rw [show ([] : List (List (List V))).length = 0 from rfl] at hb
      subst hb
      simp [flattenF3]
    | cons q p' =>
      have hc : q.length = c := ((hrest _ (List.mem_cons_self _ t')).2 q
        (List.mem_cons_self q p')).1
      subst ha hb hc
      rfl

lemma reshapeF3_flattenF3 {t : List (List (List (List V)))} {a b c : ℕ}
    (h : shape4 t a b c) : reshapeF3 a b c (flattenF3 t) = t := by
  obtain ⟨ha, hrest⟩ := h
  rw [flattenF3_eq ⟨ha, hrest⟩]
  unfold reshapeF3
  apply List.ext_getElem
  · simp [ha]
  · intro i hi1 hi2
    rw [List.getElem_map, List.getElem_range]
    have hi : i < a := by simpa using hi1
    have hpmem : t[i] ∈ t := List.getElem_mem hi2
    obtain ⟨hb, hq⟩ := hrest t[i] hpmem
    apply List.ext_getElem
    · simp [hb]
    · intro j hj1 hj2
      rw [List.getElem_map, List.getElem_range]
      have hj : j < b := by simpa using hj1
      have hqmem : t[i][j] ∈ t[i] := List.getElem_mem hj2
      obtain ⟨hc, hr⟩ := hq t[i][j] hqmem
      apply List.ext_getElem
      · simp [hc]
      · intro k hk1 hk2
        rw [List.getElem_map, List.getElem_range]
        have hk : k < c := by simpa using hk1
        have hrmem : t[i][j][k] ∈ t[i][j] := List.getElem_mem hk2
        have hlen3 := hr t[i][j][k] hrmem
        apply List.ext_getElem
        · simp [hlen3]
        · intro ch hch1 hch2
          rw [List.getElem_map, List.getElem_range]
          have hch : ch < 3 := by simpa using hch1
          obtain ⟨hmod, hdiv, hdivab, hbound⟩ := colmajor_index i j k a b c hi hj hk
          rw [getD_range_map _ _ hbound, getD_range_map _ _ hch, hmod, hdiv, hdivab]
          unfold idx4
          rw [show t.getD i [] = t[i] from by
            rw [List.getD_eq_getElem?_getD, List.getElem?_eq_getElem hi2]; rfl]
          rw [show t[i].getD j [] = t[i][j] from by
            rw [List.getD_eq_getElem?_getD, List.getElem?_eq_getElem hj2]; rfl]
          rw [show t[i][j].getD k [] = t[i][j][k] from by
            rw [List.getD_eq_getElem?_getD, List.getElem?_eq_getElem hk2]; rfl]
          rw [List.getD_eq_getElem?_getD, List.getElem?_eq_getElem hch2]
          rfl

/-- The reshape of a value-mapped row list is the value-mapped reshape,
for any pointwise map that fixes the NaN default. -/
lemma rdV_none_eq (d : ℕ) : rdV d none = none := rfl

lemma reshapeF3_map {f : V → V} (hf : f none = none) (a b c : ℕ)
    (rows : List (List V)) :
    reshapeF3 a b c (rows.map (fun r => r.map f)) =
      map4V f (reshapeF3 a b c rows) := by
  have hrow : ∀ m ch, ((rows.map (fun r => r.map f)).getD m []).getD ch none =
      f ((rows.getD m []).getD ch none) := by
    intro m ch
    have h1 : (rows.map (fun r => r.map f)).getD m [] = (rows.getD m []).map f := by
      simpa using getD_map (fun r : List V => r.map f) rows m []
    rw [h1]
    have h2 := getD_map f (rows.getD m []) ch none
    rw [hf] at h2
    exact h2
  unfold reshapeF3 map4V
  rw [List.map_map]
  apply List.map_congr_left
  intro i _
  simp only [Function.comp_apply]
  rw [List.map_map]
  apply List.map_congr_left
  intro j _
  simp only [Function.comp_apply]
  rw [List.map_map]
  apply List.map_congr_left
  intro k _
  simp only [Function.comp_apply]
  rw [List.map_map]
  apply List.map_congr_left
  intro ch _
  simp only [Function.comp_apply]
  exact hrow _ ch

/-! ### The round trip for a `LUT3D` -/

/-- The second table axis as the writer computes it (`table.shape[1]`). -/
def dimB (M : LUT3D) : ℕ := (M.table.headD []).length

/-- The third table axis as the writer computes it (`table.shape[2]`). -/
def dimC (M : LUT3D) : ℕ := ((M.table.headD []).headD []).length

/-- The writer state for a single `LUT3D`. -/
def st3 (M : LUT3D) : WriterState :=
  { lut0 := LUT3x1D_default, lut1 := M, has_3D := true, has_3x1D := false,
    non_uniform := false, name := M.name }

/-- The pre-LUT matrix that reading back a `LUT3D` file yields. -/
def pre3 (M : LUT3D) (d : ℕ) : List (List V) :=
  [[rdV d (entry2 M.domain 0 0), rdV d (entry2 M.domain 1 0)], [some 0, some 1],
   [rdV d (entry2 M.domain 0 1), rdV d (entry2 M.domain 1 1)], [some 0, some 1],
   [rdV d (entry2 M.domain 0 2), rdV d (entry2 M.domain 1 2)], [some 0, some 1]]

/-- The nine trivial shaper-group lines of the pure 3-D body. -/
def grp3 (M : LUT3D) (d : ℕ) : List Str :=
  [['2'], fmtTuple d (entry2 M.domain 0 0) (entry2 M.domain 1 0),
     fmtQ d 0 ++ ' ' :: fmtQ d 1,
   ['2'], fmtTuple d (entry2 M.domain 0 1) (entry2 M.domain 1 1),
     fmtQ d 0 ++ ' ' :: fmtQ d 1,
   ['2'], fmtTuple d (entry2 M.domain 0 2) (entry2 M.domain 1 2),
     fmtQ d 0 ++ ' ' :: fmtQ d 1]

/-- The grid-dimension line of the cube block. -/
def dims3 (M : LUT3D) : Str :=
  natChars (size3 M) ++ ' ' :: natChars (dimB M) ++ ' ' :: natChars (dimC M)

lemma emit3_eq (M : LUT3D) (d : ℕ) :
    emitLines (st3 M) d =
      ["CSPLUTV100".toList, "3D".toList, [], "BEGIN METADATA".toList, M.name] ++
        M.comments ++ ["END METADATA".toList, []] ++
        (grp3 M d ++ ([([] : Str), dims3 M] ++ (flattenF3 M.table).map (fmtArr d))) := by
  simp [emitLines, st3, LUT3x1D_default, trivial3DGroups, tableBlock3D, grp3, dims3,
    size3, dimB, dimC, fmtTuple, List.range_succ, List.append_assoc, flattenF3]

lemma write3_ok (M : LUT3D) (d : ℕ) (hlo : 2 ≤ size3 M) (hhi : size3 M ≤ 256) :
    (write_LUT_Cinespace (.stage (.lut3D M)) d).1 = .ok (emitLines (st3 M) d) := by
  simp only [write_LUT_Cinespace, classifyW]
  rw [if_neg (by simp), if_neg (by simp [hlo, hhi])]
  rfl

lemma normalize_emit3 (M : LUT3D) (d : ℕ) (hname : metaOk M.name)
    (hcom : ∀ c ∈ M.comments, metaOk c) :
    normalizeLines (emitLines (st3 M) d) =
      (["CSPLUTV100".toList, "3D".toList, "BEGIN METADATA".toList, M.name] ++
        M.comments ++ ["END METADATA".toList]) ++
      (grp3 M d ++ [dims3 M] ++ (flattenF3 M.table).map (fmtArr d)) := by
  rw [emit3_eq]
  rw [show (["CSPLUTV100".toList, "3D".toList, [], "BEGIN METADATA".toList, M.name] ++
        M.comments ++ ["END METADATA".toList, []] ++
        (grp3 M d ++ ([([] : Str), dims3 M] ++ (flattenF3 M.table).map (fmtArr d)))
        : List Str) =
      ["CSPLUTV100".toList, "3D".toList] ++ ([] : Str) ::
        (["BEGIN METADATA".toList, M.name] ++
        (M.comments ++ (["END METADATA".toList] ++ (([] : Str) ::
        (grp3 M d ++ (([] : Str) ::
          ([dims3 M] ++ (flattenF3 M.table).map (fmtArr d)))))))) from by simp]
  rw [normalizeLines_append, normalizeLines_cons_blank, normalizeLines_append,
    normalizeLines_append, normalizeLines_append, normalizeLines_cons_blank,
    normalizeLines_append, normalizeLines_cons_blank, normalizeLines_append]
  rw [normalize_fmtArr_rows d _ (flattenF3_row_len M.table)]
  rw [@normalizeLines_self (["CSPLUTV100".toList, "3D".toList])
    (by intro l hl; fin_cases hl <;> exact ⟨by decide, by decide⟩)]
  rw [@normalizeLines_self (["BEGIN METADATA".toList, M.name])
    (by
      intro l hl
      fin_cases hl
      · exact ⟨by decide, by decide⟩
      · exact ⟨hname.1, hname.2.1⟩)]
  rw [normalize_comments (fun c hc => ⟨(hcom c hc).1, (hcom c hc).2.1⟩)]
  rw [@normalizeLines_self (["END METADATA".toList])
    (by intro l hl; fin_cases hl; exact ⟨by decide, by decide⟩)]
  rw [@normalizeLines_self (grp3 M d)
    (by
      intro l hl
      unfold grp3 at hl
      fin_cases hl <;>
        first
        | exact ⟨by decide, by decide⟩
        | exact ⟨strip_fmtTuple d _ _, fmtTuple_ne_nil d _ _⟩
        | exact ⟨strip_fmtQ01 d, by simp [okTok_ne_nil (okTok_fmtV d (some 0))]⟩)]
  rw [@normalizeLines_self ([dims3 M])
    (by
      intro l hl
      fin_cases hl
      refine ⟨?_, ?_⟩
      · exact strip_sep3 (okTok_natChars _) (okTok_natChars _) (okTok_natChars _)
      · unfold dims3
        simp [natChars_ne_nil])]
  simp

lemma parseDomain_grp3 (M : LUT3D) (d : ℕ) :
    _parse_domain_section (grp3 M d) = .ok (pre3 M d) := by
  unfold grp3 _parse_domain_section intAt floatRowAt
  simp only [lget_cons_zero, lget_cons_succ, okBind]
  rw [show parseIntCs ['2'] = some (2 : ℤ) from by decide]
  simp only [okBind]
  rw [fmtQ01_line]
  simp only [parseFloatRowCs_fmtTuple, okBind]
  rfl

lemma parseTable_3 (M : LUT3D) (d : ℕ) :
    _parse_table_section (dims3 M :: (flattenF3 M.table).map (fmtArr d)) =
      .ok ([(size3 M : ℤ), (dimB M : ℤ), (dimC M : ℤ)],
        (flattenF3 M.table).map (fun r => r.map (rdV d))) := by
  unfold _parse_table_section
  simp only [lget_cons_zero, okBind]
  rw [show tokens (dims3 M) = [natChars (size3 M), natChars (dimB M), natChars (dimC M)]
    from tokens_sep3 (okTok_natChars _) (okTok_natChars _) (okTok_natChars _)]
  simp only [mapMOpt, parseIntCs_natChars, okBind, List.drop_succ_cons, List.drop_zero]
  rw [mapMExc_fmtArr d _ (flattenF3_row_len M.table)]
  simp only [Option.map_some', okBind]
  rw [if_pos (all_widths_check _ (by
    intro r hr
    obtain ⟨r0, hr0, rfl⟩ := List.mem_map.mp hr
    simp [flattenF3_row_len M.table r0 hr0]))]

lemma parseStages_emit3 (M : LUT3D) (d : ℕ) (hname : metaOk M.name)
    (hcom : ∀ c ∈ M.comments, metaOk c) :
    parseStages (emitLines (st3 M) d) =
      .ok (true, M.name, M.comments, pre3 M d,
        [(size3 M : ℤ), (dimB M : ℤ), (dimC M : ℤ)],
        (flattenF3 M.table).map (fun r => r.map (rdV d))) := by
  have hne : ¬ (emitLines (st3 M) d).length = 0 := by
    rw [emit3_eq]; simp
  have hnorm := normalize_emit3 M d hname hcom
  unfold parseStages
  rw [if_neg hne, hnorm]
  simp only [List.append_assoc, List.cons_append, List.nil_append, List.singleton_append]
  simp only [lget_cons_zero, okBind]
  rw [if_neg (by simp)]
  simp only [lget_cons_succ, lget_cons_zero, okBind]
  rw [if_neg (by simp)]
  simp only [List.drop_succ_cons, List.drop_zero]
  rw [metaScan_full M.name M.comments _ hname hcom]
  dsimp only
  simp only [_parse_metadata_section]
  have hd1 : List.drop (2 + (2 + M.comments.length))
      (("3D".toList : Str) :: "BEGIN METADATA".toList :: M.name ::
        (M.comments ++ "END METADATA".toList ::
          (grp3 M d ++ dims3 M :: List.map (fmtArr d) (flattenF3 M.table)))) =
      grp3 M d ++ dims3 M :: List.map (fmtArr d) (flattenF3 M.table) := by
    rw [show (("3D".toList : Str) :: "BEGIN METADATA".toList :: M.name ::
        (M.comments ++ "END METADATA".toList ::
          (grp3 M d ++ dims3 M :: List.map (fmtArr d) (flattenF3 M.table)))) =
      ((["3D".toList, "BEGIN METADATA".toList, M.name] ++ M.comments ++
          ["END METADATA".toList]) ++
        (grp3 M d ++ dims3 M :: List.map (fmtArr d) (flattenF3 M.table))) from by simp]
    rw [show 2 + (2 + M.comments.length) =
      ((["3D".toList, "BEGIN METADATA".toList, M.name] ++ M.comments ++
          ["END METADATA".toList] : List Str)).length from by simp; omega]
    exact List.drop_left _ _
  have hd2 : List.drop (2 + (2 + M.comments.length) + 6)
      (M.comments ++ "END METADATA".toList ::
        (grp3 M d ++ dims3 M :: List.map (fmtArr d) (flattenF3 M.table))) =
      dims3 M :: List.map (fmtArr d) (flattenF3 M.table) := by
    rw [show (M.comments ++ "END METADATA".toList ::
        (grp3 M d ++ dims3 M :: List.map (fmtArr d) (flattenF3 M.table))) =
      ((M.comments ++ ["END METADATA".toList] ++ grp3 M d) ++
        (dims3 M :: List.map (fmtArr d) (flattenF3 M.table))) from by simp]
    rw [show 2 + (2 + M.comments.length) + 6 =
      ((M.comments ++ ["END METADATA".toList] ++ grp3 M d : List Str)).length from by
        simp [grp3]; omega]
    exact List.drop_left _ _
  rw [hd1, hd2]
  rw [show (9 : ℕ) = (grp3 M d).length from rfl, List.take_left]
  rw [parseDomain_grp3, parseTable_3 M d]
  simp only [okBind]
  simp

lemma pre_unity_pre3 (M : LUT3D) (d : ℕ) : pre_unity (pre3 M d) = true := by
  unfold pre_unity pre3
  rw [Bool.and_eq_true]
  exact ⟨rfl, by rw [decide_eq_true_eq]; rfl⟩

lemma collapse_domain_pre3 (M : LUT3D) (d : ℕ) (hdom2 : M.domain.length = 2)
    (hdomw : ∀ r ∈ M.domain, r.length = 3) :
    collapse_domain (pre3 M d) = M.domain.map (roundRow d) := by
  obtain ⟨r0, r1, hd⟩ := List.length_eq_two.mp hdom2
  obtain ⟨x0, x1, x2, rfl⟩ := List.length_eq_three.mp (hdomw r0 (by rw [hd]; simp))
  obtain ⟨y0, y1, y2, rfl⟩ := List.length_eq_three.mp (hdomw r1 (by rw [hd]; simp))
  unfold collapse_domain pre3 entry2
  rw [hd]
  rfl

lemma flattenF3_map_length (M : LUT3D) (d : ℕ) :
    ((flattenF3 M.table).map (fun r => r.map (rdV d))).length =
      size3 M * dimB M * dimC M := by
  rw [List.length_map, flattenF3_length]
  rfl

lemma reshapeChecked_emit3 (M : LUT3D) (d : ℕ)
    (hshape : shape4 M.table (size3 M) (dimB M) (dimC M)) :
    reshapeChecked [(size3 M : ℤ), (dimB M : ℤ), (dimC M : ℤ)]
        ((flattenF3 M.table).map (fun r => r.map (rdV d))) =
      .ok (map4V (rdV d) M.table) := by
  have hcount : ((flattenF3 M.table).map (fun r => r.map (rdV d))).length *
      (((flattenF3 M.table).map (fun r => r.map (rdV d))).headD []).length =
      size3 M * dimB M * dimC M * 3 := by
    rw [flattenF3_map_length M d]
    by_cases h0 : size3 M * dimB M * dimC M = 0
    · rw [h0]
      simp
    · have hpos : 0 < (flattenF3 M.table).length := by
        rw [flattenF3_length]
        unfold size3 dimB dimC at h0
        omega
      obtain ⟨r0, rest, hr⟩ : ∃ r0 rest, flattenF3 M.table = r0 :: rest := by
        cases hflat : flattenF3 M.table with
        | nil => rw [hflat] at hpos; simp at hpos
        | cons r0 rest => exact ⟨r0, rest, rfl⟩
      have hw : r0.length = 3 := flattenF3_row_len M.table r0 (by rw [hr]; simp)
      rw [hr]
      simp [hw]
  unfold reshapeChecked
  simp only [List.getElem?_cons_zero, List.getElem?_cons_succ, okBind]
  rw [if_neg (by omega)]
  simp only [Int.toNat_natCast]
  rw [if_neg (not_ne_iff.mpr hcount)]
  rw [reshapeF3_map (rdV_none_eq d), reshapeF3_flattenF3 hshape]

lemma read_emit3 (M : LUT3D) (d : ℕ) (hname : metaOk M.name)
    (hcom : ∀ c ∈ M.comments, metaOk c) (hdom2 : M.domain.length = 2)
    (hdomw : ∀ r ∈ M.domain, r.length = 3)
    (hshape : shape4 M.table (size3 M) (dimB M) (dimC M)) :
    read_LUT_Cinespace (emitLines (st3 M) d) =
      .ok (.stage (.lut3D (roundL3 d M))) := by
  unfold read_LUT_Cinespace
  rw [parseStages_emit3 M d hname hcom]
  simp only [okBind]
  rw [if_neg (by
    rw [flattenF3_map_length M d]
    exact not_ne_iff.mpr (by
      rw [List.prod_cons, List.prod_cons, List.prod_cons, List.prod_nil]
      push_cast
      ring))]
  unfold classifyRead
  rw [pre_unity_pre3 M d]
  rw [if_pos (by simp)]
  rw [reshapeChecked_emit3 M d hshape]
  simp only [okBind]
  rw [collapse_domain_pre3 M d hdom2 hdomw]
  rfl

/-- Rounding an exact natural value changes nothing. -/
lemma rdQ_natCast (d n : ℕ) : rdQ d (n : ℚ) = n := by
  unfold rdQ rdNN
  rw [if_neg (by simp [Nat.cast_nonneg])]
  have h1 : (n : ℚ) * (10 : ℚ) ^ d = (((n * 10 ^ d : ℕ) : ℤ) : ℚ) := by push_cast; ring
  rw [h1, round_intCast, Int.toNat_natCast]
  push_cast
  rw [mul_div_assoc, div_self (by positivity), mul_one]

lemma parseStages_congr (raw₁ raw₂ : List Str) (h1 : raw₁.length ≠ 0)
    (h2 : raw₂.length ≠ 0) (h : normalizeLines raw₁ = normalizeLines raw₂) :
    parseStages raw₁ = parseStages raw₂ := by
  unfold parseStages
  rw [if_neg h1, if_neg h2, h]

lemma read_congr (raw₁ raw₂ : List Str) (h1 : raw₁.length ≠ 0)
    (h2 : raw₂.length ≠ 0) (h : normalizeLines raw₁ = normalizeLines raw₂) :
    read_LUT_Cinespace raw₁ = read_LUT_Cinespace raw₂ := by
  unfold read_LUT_Cinespace
  rw [parseStages_congr raw₁ raw₂ h1 h2 h]

/-! ## Claim C1: the write/read round trip -/

/-- Witness data for C1: a uniform-domain `LUT3x1D`. -/
def c1L : LUT3x1D :=
  { table := [[some 0, some 0, some 0], [some 1, some 1, some 1],
      [some 2, some 2, some 2]]
    name := "My LUT".toList
    domain := [[some 0, some 0, some 0], [some 1, some 1, some 1]]
    comments := ["A comment.".toList] }

/-- Witness data for C1: a `2 × 2 × 2` `LUT3D`. -/
def c1M : LUT3D :=
  { table :=
      [[[[some 0, some 0, some 0], [some 0, some 0, some 1]],
        [[some 0, some 1, some 0], [some 0, some 1, some 1]]],
       [[[some 1, some 0, some 0], [some 1, some 0, some 1]],
        [[some 1, some 1, some 0], [some 1, some 1, some 1]]]]
    name := "My cube".toList
    domain := [[some 0, some 0, some 0], [some 1, some 1, some 1]]
    comments := ["Cube comment.".toList] }

/-- Counterexample data for C1: an empty name next to a real comment makes
the comment become the title on read-back. -/
def c1X : LUT3x1D :=
  { table := [[some 0, some 0, some 0], [some 1, some 1, some 1]]
    name := []
    domain := [[some 0, some 0, some 0], [some 1, some 1, some 1]]
    comments := [['c']] }

/-- The repaired twin of `c1X`: what the reader actually reconstructs. -/
def c1Y : LUT3x1D :=
  { table := [[some 0, some 0, some 0], [some 1, some 1, some 1]]
    name := ['c']
    domain := [[some 0, some 0, some 0], [some 1, some 1, some 1]]
    comments := [] }

lemma normalize_emit31_noname (L : LUT3x1D) (c : Str) (d : ℕ)
    (hLname : L.name = []) (hLcom : L.comments = [c]) (hc : metaOk c)
    (htabw : ∀ r ∈ L.table, r.length = 3) :
    normalizeLines (emitLines (st31 L) d) =
      ["CSPLUTV100".toList, "1D".toList, "BEGIN METADATA".toList, c,
        "END METADATA".toList] ++
      (grp31 L d ++ [natChars (size31 L)] ++ L.table.map (fmtArr d)) := by
  rw [emit31_eq, hLname, hLcom]
  rw [show (["CSPLUTV100".toList, "1D".toList, [], "BEGIN METADATA".toList, ([] : Str)] ++
        [c] ++ ["END METADATA".toList, []] ++
        ([['2'], fmtTuple d (entry2 L.domain 0 0) (entry2 L.domain 1 0), "0.0 1.0".toList,
          ['2'], fmtTuple d (entry2 L.domain 0 1) (entry2 L.domain 1 1), "0.0 1.0".toList,
          ['2'], fmtTuple d (entry2 L.domain 0 2) (entry2 L.domain 1 2), "0.0 1.0".toList,
          [], natChars (size31 L)]) ++ L.table.map (fmtArr d) : List Str) =
      ["CSPLUTV100".toList, "1D".toList] ++
        (([] : Str) ::
          (["BEGIN METADATA".toList] ++
            (([] : Str) ::
              ([c] ++
                (["END METADATA".toList] ++
                  (([] : Str) ::
                    ([['2'], fmtTuple d (entry2 L.domain 0 0) (entry2 L.domain 1 0),
                        "0.0 1.0".toList,
                      ['2'], fmtTuple d (entry2 L.domain 0 1) (entry2 L.domain 1 1),
                        "0.0 1.0".toList,
                      ['2'], fmtTuple d (entry2 L.domain 0 2) (entry2 L.domain 1 2),
                        "0.0 1.0".toList] ++
                      (([] : Str) ::
                        ([natChars (size31 L)] ++ L.table.map (fmtArr d))))))))))
    from by simp]
  rw [normalizeLines_append, normalizeLines_cons_blank, normalizeLines_append,
    normalizeLines_cons_blank, normalizeLines_append, normalizeLines_append,
    normalizeLines_cons_blank, normalizeLines_append, normalizeLines_cons_blank,
    normalizeLines_append]
  rw [normalize_fmtArr_rows d _ htabw]
  rw [@normalizeLines_self (["CSPLUTV100".toList, "1D".toList])
    (by intro l hl; fin_cases hl <;> exact ⟨by decide, by decide⟩)]
  rw [@normalizeLines_self (["BEGIN METADATA".toList])
    (by intro l hl; fin_cases hl; exact ⟨by decide, by decide⟩)]
  rw [@normalizeLines_self ([c]) (by intro l hl; fin_cases hl; exact ⟨hc.1, hc.2.1⟩)]
  rw [@normalizeLines_self (["END METADATA".toList])
    (by intro l hl; fin_cases hl; exact ⟨by decide, by decide⟩)]
  rw [@normalizeLines_self
    ([['2'], fmtTuple d (entry2 L.domain 0 0) (entry2 L.domain 1 0), "0.0 1.0".toList,
      ['2'], fmtTuple d (entry2 L.domain 0 1) (entry2 L.domain 1 1), "0.0 1.0".toList,
      ['2'], fmtTuple d (entry2 L.domain 0 2) (entry2 L.domain 1 2), "0.0 1.0".toList])
    (by
      intro l hl
      fin_cases hl <;>
        first
        | exact ⟨by decide, by decide⟩
        | exact ⟨strip_fmtTuple d _ _, fmtTuple_ne_nil d _ _⟩)]
  rw [@normalizeLines_self ([natChars (size31 L)])
    (by intro l hl; fin_cases hl; exact ⟨strip_natChars _, natChars_ne_nil _⟩)]
  simp [grp31]

lemma c1files_eq :
    normalizeLines (emitLines (st31 c1X) 7) = normalizeLines (emitLines (st31 c1Y) 7) := by
  rw [normalize_emit31 c1Y 7 (by decide) (by decide) (by decide),
    normalize_emit31_noname c1X ['c'] 7 rfl rfl (by decide) (by decide)]
  rfl

/-- C1 (corrected): for a uniform-domain `LUT3x1D` or a rectangular `LUT3D`
within the writer's size bounds whose name and comments are normalized,
non-blank and distinct from the metadata markers, writing succeeds and
reading the produced file back yields the LUT with name and comments
unchanged and every domain and table value rounded at `decimals` places. -/
theorem claim_C1 :
    (∀ (L : LUT3x1D) (d : ℕ),
      metaOk L.name → (∀ c ∈ L.comments, metaOk c) →
      L.domain.length = 2 → (∀ r ∈ L.domain, r.length = 3) →
      (∀ r ∈ L.table, r.length = 3) →
      2 ≤ size31 L → size31 L ≤ 65536 →
      (write_LUT_Cinespace (.stage (.lut3x1D L)) d).1 = .ok (emitLines (st31 L) d) ∧
        read_LUT_Cinespace (emitLines (st31 L) d) =
          .ok (.stage (.lut3x1D (roundL31 d L)))) ∧
    (∀ (M : LUT3D) (d : ℕ),
      metaOk M.name → (∀ c ∈ M.comments, metaOk c) →
      M.domain.length = 2 → (∀ r ∈ M.domain, r.length = 3) →
      shape4 M.table (size3 M) (dimB M) (dimC M) →
      2 ≤ size3 M → size3 M ≤ 256 →
      (write_LUT_Cinespace (.stage (.lut3D M)) d).1 = .ok (emitLines (st3 M) d) ∧
        read_LUT_Cinespace (emitLines (st3 M) d) =
          .ok (.stage (.lut3D (roundL3 d M)))) :=
  ⟨fun L d h1 h2 h3 h4 h5 h6 h7 =>
    ⟨write31_ok L d h3 h6 h7, read_emit31 L d h1 h2 h3 h4 h5⟩,
   fun M d h1 h2 h3 h4 h5 h6 h7 =>
    ⟨write3_ok M d h6 h7, read_emit3 M d h1 h2 h3 h4 h5⟩⟩

/-- Witness for C1 at the concrete `c1L` and `c1M`. -/
theorem claim_C1_witness :
    ((write_LUT_Cinespace (.stage (.lut3x1D c1L)) 7).1 = .ok (emitLines (st31 c1L) 7) ∧
      read_LUT_Cinespace (emitLines (st31 c1L) 7) =
        .ok (.stage (.lut3x1D (roundL31 7 c1L)))) ∧
    ((write_LUT_Cinespace (.stage (.lut3D c1M)) 7).1 = .ok (emitLines (st3 c1M) 7) ∧
      read_LUT_Cinespace (emitLines (st3 c1M) 7) =
        .ok (.stage (.lut3D (roundL3 7 c1M)))) :=
  ⟨claim_C1.1 c1L 7 (by decide) (by decide) (by decide) (by decide) (by decide)
      (by decide) (by decide),
   claim_C1.2 c1M 7 (by decide) (by decide) (by decide) (by decide) (by decide)
      (by decide) (by decide)⟩

/-- Counterexample to C1 as stated: `c1X` is within all size bounds and has
a plain min/max domain, yet the read-back of its written file is not equal
to `c1X` up to rounding — the empty name line vanishes during
normalization, so the comment becomes the title. -/
theorem claim_C1_counterexample :
    (write_LUT_Cinespace (.stage (.lut3x1D c1X)) 7).1 = .ok (emitLines (st31 c1X) 7) ∧
    read_LUT_Cinespace (emitLines (st31 c1X) 7) ≠
      .ok (.stage (.lut3x1D (roundL31 7 c1X))) := by
  refine ⟨write31_ok c1X 7 (by decide) (by decide) (by decide), ?_⟩
  have h1 : read_LUT_Cinespace (emitLines (st31 c1X) 7) =
      read_LUT_Cinespace (emitLines (st31 c1Y) 7) :=
    read_congr _ _ (by rw [emit31_eq]; simp) (by rw [emit31_eq]; simp) c1files_eq
  rw [h1, read_emit31 c1Y 7 (by decide) (by decide) (by decide) (by decide) (by decide)]
  intro hcon
  have hnm := congrArg (fun r : Except ReadErr LUTValue =>
    match r with
    | .ok (.stage (.lut3x1D X)) => X.name
    | _ => []) hcon
  simp [roundL31, c1X, c1Y] at hnm

/-! ## Which errors each stage of the reader can produce -/

/-- The errors a data-carrying reader stage can raise: a Python
`IndexError` or `ValueError`. -/
@[reducible] def dataErr (e : ReadErr) : Prop := e = .indexErr ∨ e = .valueErr

/-- The errors the parse stages can raise on a non-empty file. -/
@[reducible] def stageErr (e : ReadErr) : Prop :=
  e = .indexErr ∨ e = .valueErr ∨ e = .invalidHeader ∨ e = .invalidKind

/-- The errors the whole reader can raise on a non-empty file. -/
@[reducible] def readStageErr (e : ReadErr) : Prop :=
  stageErr e ∨ e = .tableSizeMismatch

lemma bind_err {α β : Type} {P : ReadErr → Prop} {x : Except ReadErr α}
    {f : α → Except ReadErr β} {e : ReadErr}
    (hx : ∀ eA, x = .error eA → P eA)
    (hf : ∀ a eA, f a = .error eA → P eA)
    (h : x >>= f = .error e) : P e := by
  cases x with
  | error eA =>
    rw [errBind] at h
    injection h with h
    exact h ▸ hx eA rfl
  | ok a =>
    rw [okBind] at h
    exact hf a e h

lemma lget_err {l : List Str} {i : ℕ} {e : ReadErr}
    (h : lget l i = .error e) : e = .indexErr := by
  unfold lget at h
  cases hl : l[i]? with
  | some a => rw [hl] at h; exact Except.noConfusion h
  | none => rw [hl] at h; injection h with h; exact h.symm

lemma intAt_err {ls : List Str} {i : ℕ} {e : ReadErr}
    (h : intAt ls i = .error e) : dataErr e := by
  unfold intAt at h
  refine bind_err (fun eA hA => Or.inl (lget_err hA)) (fun a eA hA => ?_) h
  cases hp : parseIntCs a with
  | some n => rw [hp] at hA; exact Except.noConfusion hA
  | none => rw [hp] at hA; injection hA with hA; exact Or.inr hA.symm

lemma floatRowAt_err {ls : List Str} {i : ℕ} {e : ReadErr}
    (h : floatRowAt ls i = .error e) : dataErr e := by
  unfold floatRowAt at h
  refine bind_err (fun eA hA => Or.inl (lget_err hA)) (fun a eA hA => ?_) h
  cases hp : parseFloatRowCs a with
  | some r => rw [hp] at hA; exact Except.noConfusion hA
  | none => rw [hp] at hA; injection hA with hA; exact Or.inr hA.symm

lemma padRow_err {N : ℤ} {r : List V} {e : ReadErr}
    (h : padRow N r = .error e) : dataErr e := by
  unfold padRow at h
  split_ifs at h <;>
    first
      | exact Except.noConfusion h
      | (injection h with h; exact Or.inr h.symm)

lemma pds_err {ls : List Str} {e : ReadErr}
    (h : _parse_domain_section ls = .error e) : dataErr e := by
  unfold _parse_domain_section at h
  refine bind_err (fun eA hA => intAt_err hA) (fun s0 eA hA => ?_) h
  refine bind_err (fun eB hB => intAt_err hB) (fun s3 eB hB => ?_) hA
  refine bind_err (fun eC hC => intAt_err hC) (fun s6 eC hC => ?_) hB
  simp only [] at hC
  refine bind_err (fun eD hD => floatRowAt_err hD) (fun r1 eD hD => ?_) hC
  refine bind_err (fun eE hE => floatRowAt_err hE) (fun r2 eE hE => ?_) hD
  refine bind_err (fun eF hF => floatRowAt_err hF) (fun r4 eF hF => ?_) hE
  refine bind_err (fun eG hG => floatRowAt_err hG) (fun r5 eG hG => ?_) hF
  refine bind_err (fun eH hH => floatRowAt_err hH) (fun r7 eH hH => ?_) hG
  refine bind_err (fun eI hI => floatRowAt_err hI) (fun r8 eI hI => ?_) hH
  refine bind_err (fun eJ hJ => padRow_err hJ) (fun p1 eJ hJ => ?_) hI
  refine bind_err (fun eK hK => padRow_err hK) (fun p2 eK hK => ?_) hJ
  refine bind_err (fun eL hL => padRow_err hL) (fun p4 eL hL => ?_) hK
  refine bind_err (fun eM hM => padRow_err hM) (fun p5 eM hM => ?_) hL
  refine bind_err (fun eN hN => padRow_err hN) (fun p7 eN hN => ?_) hM
  refine bind_err (fun eO hO => padRow_err hO) (fun p8 eO hO => ?_) hN
  exact Except.noConfusion hO

lemma mapMExc_err {α β : Type} {f : α → Except ReadErr β} {l : List α}
    {e : ReadErr} (hf : ∀ a eA, f a = .error eA → dataErr eA)
    (h : mapMExc f l = .error e) : dataErr e := by
  induction l with
  | nil => exact Except.noConfusion h
  | cons a l ih =>
    unfold mapMExc at h
    cases hfa : f a with
    | error eA =>
      rw [hfa] at h
      injection h with h
      exact hf a e (h ▸ hfa)
    | ok b =>
      rw [hfa] at h
      cases hrec : mapMExc f l with
      | error eB =>
        rw [hrec] at h
        injection h with h
        exact ih (h ▸ hrec)
      | ok bs => rw [hrec] at h; exact Except.noConfusion h

lemma pts_err {ls : List Str} {e : ReadErr}
    (h : _parse_table_section ls = .error e) : dataErr e := by
  unfold _parse_table_section at h
  refine bind_err (fun eA hA => Or.inl (lget_err hA)) (fun l0 eA hA => ?_) h
  cases hm : mapMOpt parseIntCs (tokens l0) with
  | none =>
    rw [hm] at hA
    simp only [errBind] at hA
    injection hA with hA
    exact Or.inr hA.symm
  | some s =>
    rw [hm] at hA
    simp only [okBind] at hA
    refine bind_err
      (fun eC hC => mapMExc_err (fun a eD hD => ?_) hC) (fun rows eC hC => ?_) hA
    · cases hp : parseFloatRowCs a with
      | some r => rw [hp] at hD; exact Except.noConfusion hD
      | none => rw [hp] at hD; injection hD with hD; exact Or.inr hD.symm
    · split_ifs at hC <;>
        first
          | exact Except.noConfusion hC
          | (injection hC with hC; exact Or.inr hC.symm)

lemma reshapeChecked_err {size : List ℤ} {rows : List (List V)} {e : ReadErr}
    (h : reshapeChecked size rows = .error e) : dataErr e := by
  unfold reshapeChecked at h
  cases h0 : size[0]? with
  | none =>
    rw [h0] at h
    simp only [errBind] at h
    injection h with h
    exact Or.inl h.symm
  | some a =>
    rw [h0] at h
    simp only [okBind] at h
    cases h1 : size[1]? with
    | none =>
      rw [h1] at h
      simp only [errBind] at h
      injection h with h
      exact Or.inl h.symm
    | some b =>
      rw [h1] at h
      simp only [okBind] at h
      cases h2 : size[2]? with
      | none =>
        rw [h2] at h
        simp only [errBind] at h
        injection h with h
        exact Or.inl h.symm
      | some c =>
        rw [h2] at h
        simp only [okBind] at h
        split_ifs at h <;>
          first
            | exact Except.noConfusion h
            | (injection h with h; exact Or.inr h.symm)

lemma classifySteps234_err {is3D : Bool} {title : Str} {comments : List Str}
    {p : List (List V)} {size : List ℤ} {table : List (List V)} {e : ReadErr}
    (h : classifySteps234 is3D title comments p size table = .error e) :
    dataErr e := by
  unfold classifySteps234 at h
  simp only [] at h
  split_ifs at h <;>
    first
      | exact bind_err (fun eA hA => reshapeChecked_err hA)
          (fun t eA hA => Except.noConfusion hA) h
      | exact Except.noConfusion h

lemma classifyRead_err {is3D : Bool} {title : Str} {comments : List Str}
    {p : List (List V)} {size : List ℤ} {table : List (List V)} {e : ReadErr}
    (h : classifyRead is3D title comments p size table = .error e) :
    dataErr e := by
  unfold classifyRead at h
  split_ifs at h <;>
    first
      | exact bind_err (fun eA hA => reshapeChecked_err hA)
          (fun t eA hA => Except.noConfusion hA) h
      | exact Except.noConfusion h
      | exact classifySteps234_err h

lemma parseStages_err {raw : List Str} {e : ReadErr} (hne : raw ≠ [])
    (h : parseStages raw = .error e) : stageErr e := by
  unfold parseStages at h
  rw [if_neg (by simpa [List.length_eq_zero] using hne)] at h
  simp only [] at h
  refine bind_err (fun eA hA => Or.inl (lget_err hA)) (fun header eA hA => ?_) h
  by_cases hH : header ≠ "CSPLUTV100".toList
  · rw [if_pos hH] at hA
    injection hA with hA
    exact Or.inr (Or.inr (Or.inl hA.symm))
  rw [if_neg hH] at hA
  refine bind_err (fun eB hB => Or.inl (lget_err hB)) (fun kind eB hB => ?_) hA
  by_cases hK : ¬(kind = "1D".toList ∨ kind = "3D".toList)
  · rw [if_pos hK] at hB
    injection hB with hB
    exact Or.inr (Or.inr (Or.inr hB.symm))
  rw [if_neg hK] at hB
  refine bind_err (fun eC hC => (pds_err hC).elim Or.inl (fun hv => Or.inr (Or.inl hv)))
    (fun pre eC hC => ?_) hB
  refine bind_err (fun eD hD => (pts_err hD).elim Or.inl (fun hv => Or.inr (Or.inl hv)))
    (fun st eD hD => ?_) hC
  exact Except.noConfusion hD

lemma bindExt {α β : Type} (x : Except ReadErr α) (f g : α → Except ReadErr β)
    (h : ∀ a, f a = g a) : x >>= f = x >>= g := by
  cases x with
  | error eA => rfl
  | ok a => rw [okBind, okBind]; exact h a

/-- `read_LUT_Cinespace` with the six parsed components projected, for
error analysis without tuple pattern binders. -/
lemma read_eq (raw : List Str) : read_LUT_Cinespace raw =
    parseStages raw >>= fun t =>
      if t.2.2.2.2.1.prod ≠ (t.2.2.2.2.2.length : ℤ) then .error .tableSizeMismatch
      else classifyRead t.1 t.2.1 t.2.2.1 t.2.2.2.1 t.2.2.2.2.1 t.2.2.2.2.2 := by
  unfold read_LUT_Cinespace
  refine bindExt _ _ _ (fun t => ?_)
  obtain ⟨a, b, c, p, s, tb⟩ := t
  rfl

lemma read_err_char {raw : List Str} {e : ReadErr} (hne : raw ≠ [])
    (h : read_LUT_Cinespace raw = .error e) : readStageErr e := by
  rw [read_eq] at h
  refine bind_err (fun eA hA => ?_) (fun t eA hA => ?_) h
  · exact Or.inl (parseStages_err hne hA)
  · split_ifs at hA <;>
      first
        | (injection hA with hA; exact Or.inr hA.symm)
        | exact Or.inl ((classifyRead_err hA).elim Or.inl (fun hv => Or.inr (Or.inl hv)))

/-- A non-empty raw line list never produces `EmptyFileError`. -/
lemma read_no_empty {raw : List Str} (hne : raw ≠ []) :
    read_LUT_Cinespace raw ≠ .error .emptyFile := by
  intro hcon
  rcases read_err_char hne hcon with (h | h | h | h) | h <;>
    exact ReadErr.noConfusion h

/-! ## Claim C7: the table-size check -/

/-- C7: over any file the parse stages accept, the reader fails with
`TableSizeMismatchError` exactly when the product of the size-line integers
differs from the number of table rows; when they agree no such error is
raised. -/
theorem claim_C7 (raw : List Str) (is3D : Bool) (title : Str)
    (comments : List Str) (p : List (List V)) (size : List ℤ)
    (table : List (List V))
    (hp : parseStages raw = .ok (is3D, title, comments, p, size, table)) :
    (read_LUT_Cinespace raw = .error .tableSizeMismatch ↔
      size.prod ≠ (table.length : ℤ)) := by
  have hr : read_LUT_Cinespace raw =
      (if size.prod ≠ (table.length : ℤ) then .error .tableSizeMismatch
       else classifyRead is3D title comments p size table) := by
    rw [read_eq, hp, okBind]
  constructor
  · intro hcon
    by_contra hsz
    rw [hr, if_neg (not_ne_iff.mpr hsz)] at hcon
    rcases classifyRead_err hcon with h1 | h1 <;> exact ReadErr.noConfusion h1
  · intro hsz
    rw [hr, if_pos hsz]

/-- A minimal 2-sample shaper for the C7 witness. -/
def c7L : LUT3x1D :=
  ⟨[[some 0, some 0, some 0], [some 1, some 1, some 1]], ['L'],
   [[some 0, some 0, some 0], [some 1, some 1, some 1]], []⟩

/-- Witness for C7 at a concrete parsed file: the emitted file for `c7L`
parses, and its reader result hits the mismatch error exactly when the
size product disagrees with the row count. -/
theorem claim_C7_witness :
    read_LUT_Cinespace (emitLines (st31 c7L) 7) = .error .tableSizeMismatch ↔
      List.prod [(size31 c7L : ℤ)] ≠
        ((c7L.table.map (fun r => r.map (rdV 7))).length : ℤ) :=
  claim_C7 _ false c7L.name c7L.comments (pre31 c7L 7) _ _
    (parseStages_emit31 c7L 7 (by decide) (by decide) (by decide))

/-! ## Claim C2: the trivial-shaper collapse -/

/-- The trivial-shaper test on six explicit 2-sample rows: only the three
table rows (indices 1, 3, 5) are compared against `[0, 1]`; the domain
rows are not inspected. -/
lemma pre_unity_six (a0 b0 a1 b1 a2 b2 a3 b3 a4 b4 a5 b5 : V) :
    pre_unity [[a0, b0], [a1, b1], [a2, b2], [a3, b3], [a4, b4], [a5, b5]] = true ↔
      (a1 = some 0 ∧ a3 = some 0 ∧ a5 = some 0 ∧
       b1 = some 1 ∧ b3 = some 1 ∧ b5 = some 1) := by
  simp [pre_unity, reshape34, chunksOf, chunksAux, transposeM, unity_range,
    List.range_succ]
  tauto

/-- C2 (corrected): the collapse condition checks that all six pre-LUT
rows have 2 samples and that the three per-channel *table* rows are
`[0, 1]` — the domain rows are not inspected.  When it holds the reader
returns the single collapsed value with domain
`pre_LUT.reshape(3, 4).transpose()[0:2]`; otherwise steps 2-4 of the
decision procedure run. -/
theorem claim_C2 :
    (∀ r0 r1 r2 r3 r4 r5 : List V,
      pre_unity [r0, r1, r2, r3, r4, r5] = true ↔
        ((r0.length = 2 ∧ r2.length = 2 ∧ r4.length = 2) ∧
          r1 = [some 0, some 1] ∧ r3 = [some 0, some 1] ∧ r5 = [some 0, some 1])) ∧
    (∀ (raw : List Str) (is3D : Bool) (title : Str) (comments : List Str)
      (p : List (List V)) (size : List ℤ) (table : List (List V)),
      parseStages raw = .ok (is3D, title, comments, p, size, table) →
      size.prod = (table.length : ℤ) →
      ((pre_unity p = true →
        read_LUT_Cinespace raw =
          (if is3D then
            reshapeChecked size table >>= fun t =>
              .ok (.stage (.lut3D ⟨t, title, collapse_domain p, comments⟩))
          else .ok (.stage (.lut3x1D ⟨table, title, collapse_domain p, comments⟩)))) ∧
      (pre_unity p = false →
        read_LUT_Cinespace raw =
          classifySteps234 is3D title comments p size table))) := by
  constructor
  · intro r0 r1 r2 r3 r4 r5
    constructor
    · intro h
      have hall : ∀ r ∈ [r0, r1, r2, r3, r4, r5], r.length = 2 := by
        have h' := h
        simp only [pre_unity, Bool.and_eq_true, List.all_eq_true,
          decide_eq_true_eq] at h'
        exact h'.1
      obtain ⟨a0, b0, h0⟩ := List.length_eq_two.mp (hall r0 (by simp))
      obtain ⟨a1, b1, h1⟩ := List.length_eq_two.mp (hall r1 (by simp))
      obtain ⟨a2, b2, h2⟩ := List.length_eq_two.mp (hall r2 (by simp))
      obtain ⟨a3, b3, h3⟩ := List.length_eq_two.mp (hall r3 (by simp))
      obtain ⟨a4, b4, h4⟩ := List.length_eq_two.mp (hall r4 (by simp))
      obtain ⟨a5, b5, h5⟩ := List.length_eq_two.mp (hall r5 (by simp))
      subst h0 h1 h2 h3 h4 h5
      obtain ⟨e1, e3, e5, f1, f3, f5⟩ := (pre_unity_six _ _ _ _ _ _ _ _ _ _ _ _).mp h
      subst e1 e3 e5 f1 f3 f5
      exact ⟨⟨rfl, rfl, rfl⟩, rfl, rfl, rfl⟩
    · rintro ⟨⟨l0, l2, l4⟩, e1, e3, e5⟩
      subst e1 e3 e5
      obtain ⟨a0, b0, h0⟩ := List.length_eq_two.mp l0
      obtain ⟨a2, b2, h2⟩ := List.length_eq_two.mp l2
      obtain ⟨a4, b4, h4⟩ := List.length_eq_two.mp l4
      subst h0 h2 h4
      exact (pre_unity_six _ _ _ _ _ _ _ _ _ _ _ _).mpr
        ⟨rfl, rfl, rfl, rfl, rfl, rfl⟩
  · intro raw is3D title comments p size table hp hsz
    have hr0 : read_LUT_Cinespace raw =
        (if size.prod ≠ (table.length : ℤ) then .error .tableSizeMismatch
         else classifyRead is3D title comments p size table) := by
      rw [read_eq, hp, okBind]
    have hr : read_LUT_Cinespace raw =
        classifyRead is3D title comments p size table := by
      rw [hr0, if_neg (not_ne_iff.mpr hsz)]
    constructor
    · intro hpre
      rw [hr]
      unfold classifyRead
      cases is3D with
      | true => rw [if_pos (by simp [hpre]), if_pos rfl]
      | false => rw [if_neg (by simp), if_pos (by simp [hpre]), if_neg (by simp)]
    · intro hpre
      rw [hr]
      unfold classifyRead
      rw [if_neg (by simp [hpre]), if_neg (by simp [hpre])]

/-- A uniform `LUT3x1D` whose domain is `[0, 2]`, not the unity range. -/
def c2L : LUT3x1D :=
  ⟨[[some 0, some 0, some 0], [some 1, some 1, some 1]], ['T'],
   [[some 0, some 0, some 0], [some 2, some 2, some 2]], []⟩

/-- Witness for C2 at a concrete parsed file: the file written for `c2L`
parses, passes the size check, satisfies the trivial-shaper test, and the
reader returns the collapsed single value. -/
theorem claim_C2_witness :
    read_LUT_Cinespace (emitLines (st31 c2L) 1) =
      .ok (.stage (.lut3x1D ⟨c2L.table.map (fun r => r.map (rdV 1)), c2L.name,
        collapse_domain (pre31 c2L 1), c2L.comments⟩)) :=
  (claim_C2.2 _ false c2L.name c2L.comments (pre31 c2L 1) _ _
      (parseStages_emit31 c2L 1 (by decide) (by decide) (by decide))
      (by simp [c2L, size31])).1 (pre_unity_pre31 c2L 1)

/-- Counterexample to C2 as stated: for the `c2L` file the pre-LUT's
R-channel domain row is `[0, 2]`, not the canonical `[0, 1]`, yet the
trivial-shaper test holds and the reader still collapses to a single
`LUT3x1D`. -/
theorem claim_C2_counterexample :
    pre_unity (pre31 c2L 1) = true ∧
    (pre31 c2L 1).getD 0 [] ≠ [some 0, some 1] ∧
    read_LUT_Cinespace (emitLines (st31 c2L) 1) =
      .ok (.stage (.lut3x1D (roundL31 1 c2L))) := by
  refine ⟨pre_unity_pre31 c2L 1, ?_,
    read_emit31 c2L 1 (by decide) (by decide) (by decide) (by decide) (by decide)⟩
  have h2 : rdQ 1 (2 : ℚ) = 2 := by
    have h := rdQ_natCast 1 2
    push_cast at h
    exact h
  have h0 : (pre31 c2L 1).getD 0 [] = [some (0 : ℚ), some (2 : ℚ)] := by
    simp [pre31, c2L, entry2, rdV, rdQ_zero, h2]
  rw [h0]
  intro hcon
  rw [List.cons.injEq, List.cons.injEq] at hcon
  have h21 : (2 : ℚ) = 1 := by
    have := hcon.2.1
    injection this
  norm_num at h21

/-! ## Claim C4: folding a pure-rescale table into the pre-LUT -/

lemma read_classify {raw : List Str} {is3D : Bool} {title : Str}
    {comments : List Str} {p : List (List V)} {size : List ℤ}
    {table : List (List V)}
    (hp : parseStages raw = .ok (is3D, title, comments, p, size, table))
    (hsz : size.prod = (table.length : ℤ)) :
    read_LUT_Cinespace raw = classifyRead is3D title comments p size table := by
  have hr0 : read_LUT_Cinespace raw =
      (if size.prod ≠ (table.length : ℤ) then .error .tableSizeMismatch
       else classifyRead is3D title comments p size table) := by
    rw [read_eq, hp, okBind]
  rw [hr0, if_neg (not_ne_iff.mpr hsz)]

/-- C4: a 1-D file with a non-trivial shaper whose table block is a 2-row
min/max pair yields one `LUT3x1D` with the rescale
`value * (max - min) + min` folded into the pre-LUT table, the title as
name, the pre-LUT domain, and the comments. -/
theorem claim_C4 (raw : List Str) (title : Str) (comments : List Str)
    (p : List (List V)) (size : List ℤ) (table : List (List V))
    (hp : parseStages raw = .ok (false, title, comments, p, size, table))
    (hsz : size.prod = (table.length : ℤ))
    (hpre : pre_unity p = false)
    (htab2 : table.length = 2) (htabw : ∀ r ∈ table, r.length = 3) :
    read_LUT_Cinespace raw =
      .ok (.stage (.lut3x1D
        ⟨(tstack3 (p.getD 1 []) (p.getD 3 []) (p.getD 5 [])).map
            (fun r => List.zipWith3 (fun v mx mn => addV (mulV v (subV mx mn)) mn)
              r (table.getD 1 []) (table.getD 0 [])),
          title, tstack3 (p.getD 0 []) (p.getD 2 []) (p.getD 4 []), comments⟩)) := by
  rw [read_classify hp hsz]
  unfold classifyRead
  rw [if_neg (by simp [hpre]), if_neg (by simp [hpre])]
  unfold classifySteps234
  rw [if_neg (by simp)]
  rw [if_pos ⟨htab2, by simp only [List.all_eq_true, decide_eq_true_eq]; exact htabw⟩]

/-- The C4 witness file's table rows. -/
def c4rows : List (List V) := [[some 0, some 0, some 0], [some 3, some 3, some 3]]

/-- A carrier for the C4 witness table block. -/
def c4T : LUT3x1D := ⟨c4rows, [], [], []⟩

/-- The C4 witness file: a normalized 1-D file whose shaper table lines
are `0.0 2.0` (a non-trivial shaper) and whose table block is the 2-row
pair `0.0…` / `3.0…`. -/
def c4file : List Str :=
  ["CSPLUTV100".toList, "1D".toList, "BEGIN METADATA".toList, ['T'],
   "END METADATA".toList,
   ['2'], "0.0 1.0".toList, fmtTuple 1 (some 0) (some 2),
   ['2'], "0.0 1.0".toList, fmtTuple 1 (some 0) (some 2),
   ['2'], "0.0 1.0".toList, fmtTuple 1 (some 0) (some 2),
   natChars 2,
   fmtArr 1 [some 0, some 0, some 0], fmtArr 1 [some 3, some 3, some 3]]

/-- The parsed pre-LUT of the C4 witness file. -/
def c4p : List (List V) :=
  [[some 0, some 1], [rdV 1 (some 0), rdV 1 (some 2)],
   [some 0, some 1], [rdV 1 (some 0), rdV 1 (some 2)],
   [some 0, some 1], [rdV 1 (some 0), rdV 1 (some 2)]]

/-- The parsed table rows of the C4 witness file. -/
def c4tabP : List (List V) :=
  [[rdV 1 (some 0), rdV 1 (some 0), rdV 1 (some 0)],
   [rdV 1 (some 3), rdV 1 (some 3), rdV 1 (some 3)]]

lemma parseDomain_c4 :
    _parse_domain_section [['2'], "0.0 1.0".toList, fmtTuple 1 (some 0) (some 2),
      ['2'], "0.0 1.0".toList, fmtTuple 1 (some 0) (some 2),
      ['2'], "0.0 1.0".toList, fmtTuple 1 (some 0) (some 2)] = .ok c4p := by
  unfold _parse_domain_section intAt floatRowAt
  simp only [lget_cons_zero, lget_cons_succ, okBind]
  rw [show parseIntCs ['2'] = some (2 : ℤ) from by decide]
  simp only [okBind]
  rw [parseRow_unity]
  simp only [parseFloatRowCs_fmtTuple, okBind]
  rfl

lemma parseTable_c4 :
    _parse_table_section [natChars 2, fmtArr 1 [some 0, some 0, some 0],
      fmtArr 1 [some 3, some 3, some 3]] = .ok ([(2 : ℤ)], c4tabP) :=
  parseTable_31 c4T 1 (by decide)

lemma parseStages_c4 :
    parseStages c4file = .ok (false, ['T'], [], c4p, [(2 : ℤ)], c4tabP) := by
  have hnorm : normalizeLines c4file = c4file := by
    apply @normalizeLines_self
    intro l hl
    rw [c4file] at hl
    fin_cases hl <;>
      first
        | exact ⟨by decide, by decide⟩
        | exact ⟨strip_fmtTuple 1 _ _, fmtTuple_ne_nil 1 _ _⟩
        | exact ⟨strip_natChars 2, natChars_ne_nil 2⟩
        | exact ⟨strip_fmtArr 1 _ _ _, by rw [fmtArr_eq]; simp⟩
  unfold parseStages
  rw [if_neg (by simp [c4file]), hnorm, c4file]
  simp only [lget_cons_zero, okBind]
  rw [if_neg (by decide)]
  simp only [lget_cons_succ, lget_cons_zero, okBind]
  rw [if_neg (by decide)]
  simp only [List.drop_succ_cons, List.drop_zero]
  rw [show (["BEGIN METADATA".toList, ['T'], "END METADATA".toList, ['2'],
      "0.0 1.0".toList, fmtTuple 1 (some 0) (some 2), ['2'], "0.0 1.0".toList,
      fmtTuple 1 (some 0) (some 2), ['2'], "0.0 1.0".toList,
      fmtTuple 1 (some 0) (some 2), natChars 2, fmtArr 1 [some 0, some 0, some 0],
      fmtArr 1 [some 3, some 3, some 3]] : List Str) =
    "BEGIN METADATA".toList :: ['T'] :: (([] : List Str) ++ "END METADATA".toList ::
      [['2'], "0.0 1.0".toList, fmtTuple 1 (some 0) (some 2), ['2'],
       "0.0 1.0".toList, fmtTuple 1 (some 0) (some 2), ['2'], "0.0 1.0".toList,
       fmtTuple 1 (some 0) (some 2), natChars 2, fmtArr 1 [some 0, some 0, some 0],
       fmtArr 1 [some 3, some 3, some 3]]) from rfl]
  rw [metaScan_full ['T'] [] _ (by decide) (by simp)]
  dsimp only
  simp only [_parse_metadata_section]
  simp only [List.length_nil, List.drop_succ_cons, List.drop_zero,
    List.take_succ_cons, List.take_zero, Nat.add_zero, Nat.reduceAdd]
  simp only [List.nil_append, List.drop_succ_cons, List.drop_zero,
    List.take_succ_cons, List.take_zero]
  rw [parseDomain_c4]
  simp only [okBind]
  rw [parseTable_c4]
  simp only [okBind]
  rw [show (decide ("1D".toList = "3D".toList)) = false from by decide]

lemma rdQ_two : rdQ 1 (2 : ℚ) = 2 := by
  have h := rdQ_natCast 1 2
  push_cast at h
  exact h

/-- Witness for C4: reading the concrete non-trivial-shaper file folds the
`[0, 3]` rescale into the pre-LUT table. -/
theorem claim_C4_witness :
    read_LUT_Cinespace c4file =
      .ok (.stage (.lut3x1D
        ⟨(tstack3 (c4p.getD 1 []) (c4p.getD 3 []) (c4p.getD 5 [])).map
            (fun r => List.zipWith3 (fun v mx mn => addV (mulV v (subV mx mn)) mn)
              r (c4tabP.getD 1 []) (c4tabP.getD 0 [])),
          ['T'], tstack3 (c4p.getD 0 []) (c4p.getD 2 []) (c4p.getD 4 []), []⟩)) :=
  claim_C4 c4file ['T'] [] c4p [(2 : ℤ)] c4tabP parseStages_c4
    (by simp [c4tabP])
    (by
      rw [show c4p = [[some 0, some 1], [some 0, some 2], [some 0, some 1],
        [some 0, some 2], [some 0, some 1], [some 0, some 2]] from by
          simp [c4p, rdV, rdQ_zero, rdQ_two]]
      rw [Bool.eq_false_iff]
      intro hcon
      obtain ⟨e1, e3, e5, f1, f3, f5⟩ :=
        (pre_unity_six _ _ _ _ _ _ _ _ _ _ _ _).mp hcon
      injection f1 with f1
      norm_num at f1)
    (by simp [c4tabP])
    (by simp [c4tabP, rdV])

/-! ## Claim C3: the column-major reshape convention -/

/-- C3: the 3-D table is unflattened in column-major order — flat row `m`
lands at grid index `(m mod Nx, (m div Nx) mod Ny, m div (Nx*Ny))` — the
reshape step accepts exactly a matching element count, and the writer's
flattening is the inverse convention. -/
theorem claim_C3 :
    (∀ (a b c : ℕ) (rows : List (List V)) (m ch : ℕ),
      m < a * b * c → ch < 3 →
      idx4 (reshapeF3 a b c rows) (m % a) (m / a % b) (m / (a * b)) ch =
        (rows.getD m []).getD ch none) ∧
    (∀ (Nx Ny Nz : ℤ) (rows : List (List V)),
      0 ≤ Nx → 0 ≤ Ny → 0 ≤ Nz →
      rows.length * (rows.headD []).length = Nx.toNat * Ny.toNat * Nz.toNat * 3 →
      reshapeChecked [Nx, Ny, Nz] rows =
        .ok (reshapeF3 Nx.toNat Ny.toNat Nz.toNat rows)) ∧
    (∀ (t : List (List (List (List V)))) (a b c : ℕ), shape4 t a b c →
      flattenF3 t = (List.range (a * b * c)).map (fun r =>
        (List.range 3).map fun ch => idx4 t (r % a) (r / a % b) (r / (a * b)) ch) ∧
      reshapeF3 a b c (flattenF3 t) = t) := by
  refine ⟨?_, ?_, fun t a b c h => ⟨flattenF3_eq h, reshapeF3_flattenF3 h⟩⟩
  · intro a b c rows m ch hm hch
    have ha : 0 < a := by
      rcases Nat.eq_zero_or_pos a with h | h
      · subst h; simp at hm
      · exact h
    have hb : 0 < b := by
      rcases Nat.eq_zero_or_pos b with h | h
      · subst h; simp at hm
      · exact h
    have hi : m % a < a := Nat.mod_lt _ ha
    have hj : m / a % b < b := Nat.mod_lt _ hb
    have hk : m / (a * b) < c := by
      rw [Nat.div_lt_iff_lt_mul (Nat.mul_pos ha hb)]
      calc m < a * b * c := hm
      _ = c * (a * b) := by ring
    have hidx : m % a + a * (m / a % b) + a * b * (m / (a * b)) = m := by
      rw [← Nat.div_div_eq_div_mul]
      calc m % a + a * (m / a % b) + a * b * (m / a / b)
          = m % a + a * (m / a % b + b * (m / a / b)) := by ring
        _ = m % a + a * (m / a) := by rw [Nat.mod_add_div]
        _ = m := Nat.mod_add_div m a
    unfold idx4 reshapeF3
    rw [getD_range_map _ _ hi, getD_range_map _ _ hj, getD_range_map _ _ hk,
      getD_range_map _ _ hch, hidx]
  · intro Nx Ny Nz rows hx hy hz hcount
    unfold reshapeChecked
    simp only [List.getElem?_cons_zero, List.getElem?_cons_succ, okBind]
    rw [if_neg (by omega), if_neg (not_ne_iff.mpr hcount)]

/-- Witness for C3 at the `4 4 4` scenario of the spec: flat row 37 of a
64-row table is read back at grid index `(1, 1, 2)` = `(37 mod 4,
(37 div 4) mod 4, 37 div 16)`, and a small cube checks the reshape
acceptance and the writer-side inverse. -/
theorem claim_C3_witness :
    (idx4 (reshapeF3 4 4 4 (List.replicate 64 [some 0, some 1, some 2]))
        (37 % 4) (37 / 4 % 4) (37 / (4 * 4)) 2 =
      ((List.replicate 64 [some (0 : ℚ), some 1, some 2]).getD 37 []).getD 2 none) ∧
    (reshapeChecked [(1 : ℤ), 1, 1] [[some 5, some 6, some 7]] =
      .ok (reshapeF3 1 1 1 [[some 5, some 6, some 7]])) ∧
    (reshapeF3 1 1 1 (flattenF3 [[[[some 5, some 6, some 7]]]]) =
      [[[[some (5 : ℚ), some 6, some 7]]]]) :=
  ⟨claim_C3.1 4 4 4 _ 37 2 (by decide) (by decide),
   claim_C3.2.1 1 1 1 _ (by decide) (by decide) (by decide) (by decide),
   (claim_C3.2.2 [[[[some 5, some 6, some 7]]]] 1 1 1 (by decide)).2⟩

/-! ## Claim C5: mutation of the caller's value -/

/-- C5 (corrected): the caller-visible post-state of the input.  A
`LUTSequence` whose first stage is a `LUT1D` has that stage replaced, in
place, by its `LUT3x1D` conversion (even when a later size check fails);
every other input is left unchanged. -/
theorem claim_C5 (v : LUTValue) (d : ℕ) :
    (write_LUT_Cinespace v d).2 =
      match v with
      | .sequence [.lut1D a, .lut3D b] => .sequence [.lut3x1D (as_LUT3x1D a), .lut3D b]
      | _ => v := by
  rcases v with s | ss | _
  · rcases s with a | a | a <;>
      (simp only [write_LUT_Cinespace, classifyW]; split_ifs <;> rfl)
  · rcases ss with _ | ⟨s0, _ | ⟨s1, _ | ⟨s2, rest⟩⟩⟩
    · rfl
    · rcases s0 with a | a | a <;> rfl
    · rcases s0 with a | a | a <;> rcases s1 with b | b | b <;>
        (first
          | rfl
          | (simp only [write_LUT_Cinespace, classifyW]; split_ifs <;> rfl))
    · rcases s0 with a | a | a <;> rcases s1 with b | b | b <;> rfl
  · rfl

/-- The first stage of the C5 counterexample sequence: a `LUT1D`. -/
def c5a : LUT1D :=
  ⟨[some 0, some 1], ['a'], [some 0, some 1], []⟩

/-- The second stage of the C5 counterexample sequence: a 2×2×2 `LUT3D`. -/
def c5b : LUT3D :=
  ⟨[[[[some 0, some 0, some 0], [some 1, some 1, some 1]],
     [[some 0, some 0, some 0], [some 1, some 1, some 1]]],
    [[[some 0, some 0, some 0], [some 1, some 1, some 1]],
     [[some 0, some 0, some 0], [some 1, some 1, some 1]]]],
   ['b'], [[some 0, some 0, some 0], [some 1, some 1, some 1]], []⟩

/-- Counterexample data for C5: a sequence with a `LUT1D` first stage. -/
def c5v : LUTValue := .sequence [.lut1D c5a, .lut3D c5b]

/-- Counterexample to C5 as stated: after the write call the caller's
sequence is no longer equal to what was passed in. -/
theorem claim_C5_counterexample : (write_LUT_Cinespace c5v 7).2 ≠ c5v := by
  have h : (write_LUT_Cinespace c5v 7).2 =
      .sequence [.lut3x1D (as_LUT3x1D c5a), .lut3D c5b] := by
    simp only [c5v, write_LUT_Cinespace, classifyW]
    split_ifs <;> rfl
  rw [h]
  simp [c5v]

/-! ## Claim C6: size-bound errors -/

/-- C6 (corrected): with a present (normalized) shaper stage of
out-of-range size the writer fails with `ShaperSizeOutOfRangeError`; with a
present cube stage of out-of-range size it fails with
`CubeSizeOutOfRangeError` provided the shaper check passed (the shaper
check runs first). -/
theorem claim_C6 (v : LUTValue) (d : ℕ) (st : WriterState) (post : LUTValue)
    (hc : classifyW v = .ok (st, post)) :
    (st.has_3x1D = true → ¬(2 ≤ size31 st.lut0 ∧ size31 st.lut0 ≤ 65536) →
      (write_LUT_Cinespace v d).1 = .error .shaperSizeOutOfRange) ∧
    (st.has_3D = true → ¬(2 ≤ size3 st.lut1 ∧ size3 st.lut1 ≤ 256) →
      (st.has_3x1D = true → (2 ≤ size31 st.lut0 ∧ size31 st.lut0 ≤ 65536)) →
      (write_LUT_Cinespace v d).1 = .error .cubeSizeOutOfRange) := by
  have hw : write_LUT_Cinespace v d =
      (if st.has_3x1D = true ∧ ¬(2 ≤ size31 st.lut0 ∧ size31 st.lut0 ≤ 65536) then
        (.error .shaperSizeOutOfRange, post)
      else if st.has_3D = true ∧ ¬(2 ≤ size3 st.lut1 ∧ size3 st.lut1 ≤ 256) then
        (.error .cubeSizeOutOfRange, post)
      else (.ok (emitLines st d), post)) := by
    unfold write_LUT_Cinespace
    rw [hc]
  constructor
  · intro h1 h2
    rw [hw, if_pos ⟨h1, h2⟩]
  · intro h1 h2 h3
    rw [hw, if_neg (by rintro ⟨hx, hb⟩; exact hb (h3 hx)), if_pos ⟨h1, h2⟩]

/-- A shaper of size 1. -/
def c6small : LUT3x1D :=
  ⟨[[some 0, some 0, some 0]], ['s'],
   [[some 0, some 0, some 0], [some 1, some 1, some 1]], []⟩

/-- A shaper of size 70000. -/
def c6big : LUT3x1D :=
  ⟨List.replicate 70000 [some 0, some 0, some 0], ['b'],
   [[some 0, some 0, some 0], [some 1, some 1, some 1]], []⟩

/-- A cube of size 300. -/
def c6cube : LUT3D :=
  ⟨List.replicate 300 [], ['c'],
   [[some 0, some 0, some 0], [some 1, some 1, some 1]], []⟩

/-- Witness for C6: size 1 and size 70000 shapers fail with the shaper
error, a size 300 cube fails with the cube error. -/
theorem claim_C6_witness :
    (write_LUT_Cinespace (.stage (.lut3x1D c6small)) 7).1 =
      .error .shaperSizeOutOfRange ∧
    (write_LUT_Cinespace (.stage (.lut3x1D c6big)) 7).1 =
      .error .shaperSizeOutOfRange ∧
    (write_LUT_Cinespace (.stage (.lut3D c6cube)) 7).1 =
      .error .cubeSizeOutOfRange :=
  ⟨(claim_C6 (.stage (.lut3x1D c6small)) 7
      ⟨c6small, LUT3D_default, false, true, is_domain_explicit31 c6small,
        c6small.name⟩ (.stage (.lut3x1D c6small)) rfl).1 rfl (by decide),
   (claim_C6 (.stage (.lut3x1D c6big)) 7
      ⟨c6big, LUT3D_default, false, true, is_domain_explicit31 c6big,
        c6big.name⟩ (.stage (.lut3x1D c6big)) rfl).1 rfl
      (by
        have h : size31 c6big = 70000 := by
          rw [c6big, size31, List.length_replicate]
        rw [h]; omega),
   (claim_C6 (.stage (.lut3D c6cube)) 7
      ⟨LUT3x1D_default, c6cube, true, false, false, c6cube.name⟩
      (.stage (.lut3D c6cube)) rfl).2 rfl
      (by
        have h : size3 c6cube = 300 := by
          rw [c6cube, size3, List.length_replicate]
        rw [h]; omega)
      (fun h => Bool.noConfusion h)⟩

/-- Counterexample data for C6: a sequence whose shaper and cube sizes are
both out of range. -/
def c6both : LUTValue := .sequence [.lut3x1D c6small, .lut3D c6cube]

/-- Counterexample to C6 as stated: with both stages out of range the call
fails with the shaper error, not the cube error, although the cube stage is
present with size 300. -/
theorem claim_C6_counterexample :
    (write_LUT_Cinespace c6both 7).1 = .error .shaperSizeOutOfRange ∧
    (write_LUT_Cinespace c6both 7).1 ≠ .error .cubeSizeOutOfRange := by
  have h : (write_LUT_Cinespace c6both 7).1 = .error .shaperSizeOutOfRange := by
    have hw : write_LUT_Cinespace c6both 7 =
        (if (true : Bool) = true ∧
            ¬(2 ≤ size31 c6small ∧ size31 c6small ≤ 65536) then
          (.error .shaperSizeOutOfRange, c6both)
        else if (true : Bool) = true ∧
            ¬(2 ≤ size3 c6cube ∧ size3 c6cube ≤ 256) then
          (.error .cubeSizeOutOfRange, c6both)
        else (.ok (emitLines ⟨c6small, c6cube, true, true, false,
          c6cube.name⟩ 7), c6both)) := rfl
    rw [hw, if_pos ⟨rfl, by decide⟩]
  exact ⟨h, by rw [h]; simp⟩

/-! ## Claim C9: writer type and shape errors -/

/-- A sequence of the accepted two-stage shape. -/
def seq_shape_ok (ss : List LUTStage) : Bool :=
  match ss with
  | [.lut1D _, .lut3D _] => true
  | [.lut3x1D _, .lut3D _] => true
  | _ => false

/-- C9: a non-LUT input fails with `InvalidLUTTypeError`; a `LUTSequence`
fails with `InvalidSequenceShapeError` exactly when its shape is not
`{LUT1D | LUT3x1D} + LUT3D`; single-LUT inputs never produce either
error. -/
theorem claim_C9 :
    (∀ d : ℕ, (write_LUT_Cinespace .other d).1 = .error .invalidLUTType) ∧
    (∀ (ss : List LUTStage) (d : ℕ),
      (seq_shape_ok ss = false →
        (write_LUT_Cinespace (.sequence ss) d).1 = .error .invalidSequenceShape) ∧
      (seq_shape_ok ss = true →
        (write_LUT_Cinespace (.sequence ss) d).1 ≠ .error .invalidSequenceShape ∧
        (write_LUT_Cinespace (.sequence ss) d).1 ≠ .error .invalidLUTType)) ∧
    (∀ (s : LUTStage) (d : ℕ),
      (write_LUT_Cinespace (.stage s) d).1 ≠ .error .invalidLUTType ∧
      (write_LUT_Cinespace (.stage s) d).1 ≠ .error .invalidSequenceShape) := by
  refine ⟨fun d => rfl, fun ss d => ⟨?_, ?_⟩, fun s d => ?_⟩
  · intro hbad
    rcases ss with _ | ⟨s0, _ | ⟨s1, _ | ⟨s2, rest⟩⟩⟩
    · rfl
    · rcases s0 with a | a | a <;> rfl
    · rcases s0 with a | a | a <;> rcases s1 with b | b | b <;>
        simp [seq_shape_ok] at hbad <;> rfl
    · rcases s0 with a | a | a <;> rcases s1 with b | b | b <;> rfl
  · intro hok
    rcases ss with _ | ⟨s0, _ | ⟨s1, _ | ⟨s2, rest⟩⟩⟩
    · simp [seq_shape_ok] at hok
    · rcases s0 with a | a | a <;> simp [seq_shape_ok] at hok
    · rcases s0 with a | a | a <;> rcases s1 with b | b | b <;>
        simp [seq_shape_ok] at hok <;>
        (constructor <;>
          (simp only [write_LUT_Cinespace, classifyW]; split_ifs <;> simp))
    · rcases s0 with a | a | a <;> rcases s1 with b | b | b <;>
        simp [seq_shape_ok] at hok
  · rcases s with a | a | a <;>
      (constructor <;>
        (simp only [write_LUT_Cinespace, classifyW]; split_ifs <;> simp))

/-- Witness for C9 at concrete inputs: a single-stage sequence is rejected
for its shape, a well-shaped two-stage sequence is not. -/
theorem claim_C9_witness :
    (write_LUT_Cinespace .other 7).1 = .error .invalidLUTType ∧
    (write_LUT_Cinespace (.sequence [.lut3D c6cube]) 7).1 =
      .error .invalidSequenceShape ∧
    ((write_LUT_Cinespace (.sequence [.lut3x1D c6small, .lut3D c6cube]) 7).1 ≠
        .error .invalidSequenceShape ∧
      (write_LUT_Cinespace (.sequence [.lut3x1D c6small, .lut3D c6cube]) 7).1 ≠
        .error .invalidLUTType) :=
  ⟨claim_C9.1 7,
   (claim_C9.2.1 [.lut3D c6cube] 7).1 (by simp [seq_shape_ok]),
   (claim_C9.2.1 [.lut3x1D c6small, .lut3D c6cube] 7).2 (by simp [seq_shape_ok])⟩

/-! ## Claim C8: the empty-file check -/

/-- C8 (corrected): `EmptyFileError` is raised exactly for a file whose raw
line list is empty — the check runs before normalization, so a file of
blank or whitespace-only lines instead fails with an `IndexError` at the
header access. -/
theorem claim_C8 :
    read_LUT_Cinespace [] = .error .emptyFile ∧
    (∀ raw : List Str, raw ≠ [] →
      read_LUT_Cinespace raw ≠ .error .emptyFile) ∧
    (∀ raw : List Str, raw ≠ [] → normalizeLines raw = [] →
      read_LUT_Cinespace raw = .error .indexErr) := by
  refine ⟨rfl, fun raw hne => read_no_empty hne, ?_⟩
  intro raw hne hnorm
  unfold read_LUT_Cinespace parseStages
  rw [if_neg (by simpa [List.length_eq_zero] using hne), hnorm]
  rfl

/-- Witness for C8: a file of one whitespace-only line hits the corrected
behavior. -/
theorem claim_C8_witness :
    ([[' ']] : List Str) ≠ [] ∧ normalizeLines [[' ']] = [] ∧
    read_LUT_Cinespace [[' ']] ≠ .error .emptyFile ∧
    read_LUT_Cinespace [[' ']] = .error .indexErr :=
  ⟨by decide, by decide, claim_C8.2.1 [[' ']] (by decide),
   claim_C8.2.2 [[' ']] (by decide) (by decide)⟩

/-! ## Claim C10: global min/max in the non-uniform shaper -/

/-- C10: for an explicit-domain (non-uniform) shaper the writer
renormalizes every channel's table samples with the single global
`nanmin`/`nanmax` of the whole shaper table, and writes that same global
pair as the trivial 2-row table block. -/
theorem claim_C10 (L : LUT3x1D) (d : ℕ)
    (hexp : is_domain_explicit31 L = true)
    (hlo : 2 ≤ size31 L) (hhi : size31 L ≤ 65536) :
    (write_LUT_Cinespace (.stage (.lut3x1D L)) d).1 =
      .ok (["CSPLUTV100".toList, "1D".toList, [], "BEGIN METADATA".toList,
          L.name] ++
        L.comments ++ ["END METADATA".toList, []] ++
        ((List.range 3).map (fun i =>
          [natChars (ragged_size L.domain i),
           joinTrail ((List.range (ragged_size L.domain i)).map fun j =>
             fmtV d (entry2 L.domain j i)),
           joinTrail ((List.range (ragged_size L.domain i)).map fun j =>
             fmtV d (divV (subV (entry2 L.table j i) (nanmin L.table))
               (subV (nanmax L.table) (nanmin L.table))))])).flatten ++
        [[], natChars 2,
         fmtArr d [nanmin L.table, nanmin L.table, nanmin L.table],
         fmtArr d [nanmax L.table, nanmax L.table, nanmax L.table]]) := by
  simp only [write_LUT_Cinespace, classifyW, hexp]
  rw [if_neg (by simp [hlo, hhi]), if_neg (by simp)]
  have hch : ∀ i ∈ List.range 3,
      chan31 ⟨L, LUT3D_default, false, true, true, L.name⟩ d i =
        [natChars (ragged_size L.domain i),
         joinTrail ((List.range (ragged_size L.domain i)).map fun j =>
           fmtV d (entry2 L.domain j i)),
         joinTrail ((List.range (ragged_size L.domain i)).map fun j =>
           fmtV d (divV (subV (entry2 L.table j i) (nanmin L.table))
             (subV (nanmax L.table) (nanmin L.table))))] := by
    intro i _
    simp [chan31, hexp]
  simp [emitLines, tableBlock3D, hexp, List.append_assoc,
    show LUT3D_default.comments = [] from rfl, List.map_congr_left hch]

/-- An explicit-domain shaper: 3 domain rows, 3 table rows. -/
def c10L : LUT3x1D :=
  ⟨[[some 0, some 0, some 0], [some 1, some 1, some 1], [some 4, some 4, some 4]],
   ['N'],
   [[some 0, some 0, some 0], [some 1, some 1, some 1], [some 2, some 2, some 2]],
   []⟩

/-- Witness for C10 at the concrete explicit-domain shaper `c10L`. -/
theorem claim_C10_witness :
    (write_LUT_Cinespace (.stage (.lut3x1D c10L)) 7).1 =
      .ok (["CSPLUTV100".toList, "1D".toList, [], "BEGIN METADATA".toList,
          c10L.name] ++
        c10L.comments ++ ["END METADATA".toList, []] ++
        ((List.range 3).map (fun i =>
          [natChars (ragged_size c10L.domain i),
           joinTrail ((List.range (ragged_size c10L.domain i)).map fun j =>
             fmtV 7 (entry2 c10L.domain j i)),
           joinTrail ((List.range (ragged_size c10L.domain i)).map fun j =>
             fmtV 7 (divV (subV (entry2 c10L.table j i) (nanmin c10L.table))
               (subV (nanmax c10L.table) (nanmin c10L.table))))])).flatten ++
        [[], natChars 2,
         fmtArr 7 [nanmin c10L.table, nanmin c10L.table, nanmin c10L.table],
         fmtArr 7 [nanmax c10L.table, nanmax c10L.table, nanmax c10L.table]]) :=
  claim_C10 c10L 7 (by decide) (by decide) (by decide)

/-- Counterexample to C8 as stated: a whitespace-only (normalization-empty)
file does not raise `EmptyFileError`. -/
theorem claim_C8_counterexample :
    read_LUT_Cinespace [[' ']] ≠ .error .emptyFile := by
  intro hcon
  have h : read_LUT_Cinespace [[' ']] = .error .indexErr := rfl
  rw [h] at hcon
  simp at hcon

end Csp
